import Mathlib

/-!
Verification of the cache layer of a task-tracking service
(src/lib/cache.ts together with src/lib/redis.ts).

The Redis client is modelled as an explicit state: an association list from
keys to stored strings with optional absolute expiry times, plus the
connection flags of redis.ts and a clock measured in seconds.  Every store
call the cache layer makes (get, setEx, del, exists, keys, incr, expire,
info, dbSize) is embedded as a state-passing function that can signal an
error, standing for a rejected promise; a per-call fault flag injects the
failures the spec's degradation policy is about, and a closed client makes
every call fail, exactly as the node-redis client throws when it is not
open.  JSON.stringify and JSON.parse are modelled over a JSON value type
whose numbers are integers (none of the cached projections carry
non-integral numbers; floating point is out of scope).
-/

set_option maxRecDepth 8192

/-- A JSON value as produced by JSON.parse: the payload type of the cache.
Numbers are modelled as integers. -/
inductive JsValue where
  | null : JsValue
  | bool (b : Bool) : JsValue
  | num (n : Int) : JsValue
  | str (s : String) : JsValue
  | arr (elems : List JsValue) : JsValue
  | obj (membs : List (String × JsValue)) : JsValue

/-- Decimal digits of a natural number, most significant first. -/
def natChars (n : Nat) : List Char :=
  if n < 10 then [Nat.digitChar n]
  else natChars (n / 10) ++ [Nat.digitChar (n % 10)]
termination_by n
decreasing_by exact Nat.div_lt_self (by omega) (by omega)

/-- The characters JSON.stringify prints for an integral number. -/
def intChars (n : Int) : List Char :=
  if n < 0 then '-' :: natChars n.natAbs else natChars n.natAbs

/-- JSON.stringify's escaping of one string character. -/
def escChar (c : Char) : List Char :=
  if c = '"' then ['\\', '"']
  else if c = '\\' then ['\\', '\\']
  else if c = Char.ofNat 8 then ['\\', 'b']
  else if c = Char.ofNat 9 then ['\\', 't']
  else if c = Char.ofNat 10 then ['\\', 'n']
  else if c = Char.ofNat 12 then ['\\', 'f']
  else if c = Char.ofNat 13 then ['\\', 'r']
  else if c.toNat < 32 then
    ['\\', 'u', '0', '0', Nat.digitChar (c.toNat / 16), Nat.digitChar (c.toNat % 16)]
  else [c]

/-- Escape every character of a string body. -/
def escChars : List Char → List Char
  | [] => []
  | c :: cs => escChar c ++ escChars cs

/-- JSON.stringify of a string: quoted and escaped. -/
def printStr (s : String) : List Char :=
  '"' :: (escChars s.data ++ ['"'])

mutual

/-- JSON.stringify (no whitespace, keys in order), as a character list. -/
def printVal : JsValue → List Char
  | JsValue.null => ['n', 'u', 'l', 'l']
  | JsValue.bool true => ['t', 'r', 'u', 'e']
  | JsValue.bool false => ['f', 'a', 'l', 's', 'e']
  | JsValue.num n => intChars n
  | JsValue.str s => printStr s
  | JsValue.arr [] => ['[', ']']
  | JsValue.arr (v :: vs) => '[' :: ((printVal v ++ printTail vs) ++ [']'])
  | JsValue.obj [] => ['\x7b', '\x7d']
  | JsValue.obj (m :: ms) => '\x7b' :: ((printMemb m ++ printMembTail ms) ++ ['\x7d'])

/-- One object member: quoted key, colon, value. -/
def printMemb : String × JsValue → List Char
  | (k, v) => printStr k ++ (':' :: printVal v)

/-- Remaining array elements, each preceded by a comma. -/
def printTail : List JsValue → List Char
  | [] => []
  | v :: vs => ',' :: (printVal v ++ printTail vs)

/-- Remaining object members, each preceded by a comma. -/
def printMembTail : List (String × JsValue) → List Char
  | [] => []
  | m :: ms => ',' :: (printMemb m ++ printMembTail ms)

end

/-- JSON.stringify, as the cache layer applies it to every cached payload. -/
def stringify (v : JsValue) : String := String.mk (printVal v)

/-- JSON whitespace. -/
def isWsChar (c : Char) : Bool :=
  c = ' ' || c = Char.ofNat 9 || c = Char.ofNat 10 || c = Char.ofNat 13

/-- Drop leading JSON whitespace. -/
def skipWs : List Char → List Char
  | [] => []
  | c :: cs => if isWsChar c then skipWs cs else c :: cs

/-- Numeric value of a decimal digit character. -/
def digitVal (c : Char) : Nat := c.toNat - 48

/-- Consume a maximal run of decimal digits, accumulating their value. -/
def readDigits (acc : Nat) : List Char → Nat × List Char
  | [] => (acc, [])
  | c :: cs => if c.isDigit then readDigits (acc * 10 + digitVal c) cs else (acc, c :: cs)

/-- Parse a JSON natural numeral: a single zero, or a nonzero digit followed
by more digits (JSON numbers have no leading zeros). -/
def parseNatNum : List Char → Option (Nat × List Char)
  | [] => none
  | c :: cs =>
    if c = '0' then some (0, cs)
    else if c.isDigit then some (readDigits (digitVal c) cs)
    else none

/-- Parse a JSON integer numeral with optional leading minus sign. -/
def parseNum : List Char → Option (JsValue × List Char)
  | [] => none
  | c :: cs =>
    if c = '-' then
      match parseNatNum cs with
      | some (n, rest) => some (JsValue.num (-(n : Int)), rest)
      | none => none
    else
      match parseNatNum (c :: cs) with
      | some (n, rest) => some (JsValue.num ((n : Int)), rest)
      | none => none

/-- Numeric value of a hexadecimal digit character, either case. -/
def hexVal (c : Char) : Option Nat :=
  if c.isDigit then some (c.toNat - 48)
  else if 97 ≤ c.toNat ∧ c.toNat ≤ 102 then some (c.toNat - 87)
  else if 65 ≤ c.toNat ∧ c.toNat ≤ 70 then some (c.toNat - 55)
  else none

/-- The character denoted by a single-letter JSON escape. -/
def escCode (e : Char) : Option Char :=
  if e = '"' then some '"'
  else if e = '\\' then some '\\'
  else if e = '/' then some '/'
  else if e = 'b' then some (Char.ofNat 8)
  else if e = 'f' then some (Char.ofNat 12)
  else if e = 'n' then some (Char.ofNat 10)
  else if e = 'r' then some (Char.ofNat 13)
  else if e = 't' then some (Char.ofNat 9)
  else none

/-- Parse the body of a JSON string literal after the opening quote, up to
and including the closing quote.  Escape sequences are decoded; a bare
control character is rejected.  Surrogate escapes are rejected (the cached
payloads never contain them). -/
def parseStringBody : List Char → Option (List Char × List Char)
  | [] => none
  | c :: cs =>
    if c = '"' then some ([], cs)
    else if c = '\\' then
      match cs with
      | [] => none
      | e :: cs2 =>
        if e = 'u' then
          match cs2 with
          | h1 :: h2 :: h3 :: h4 :: cs3 =>
            match hexVal h1, hexVal h2, hexVal h3, hexVal h4 with
            | some a, some b, some g, some d =>
              let n := ((a * 16 + b) * 16 + g) * 16 + d
              if n < 55296 ∨ 57344 ≤ n then
                match parseStringBody cs3 with
                | some (s, rest) => some (Char.ofNat n :: s, rest)
                | none => none
              else none
            | _, _, _, _ => none
          | _ => none
        else
          match escCode e with
          | some d =>
            match parseStringBody cs2 with
            | some (s, rest) => some (d :: s, rest)
            | none => none
          | none => none
    else if c.toNat < 32 then none
    else
      match parseStringBody cs with
      | some (s, rest) => some (c :: s, rest)
      | none => none

mutual

/-- Parse one JSON value (fuelled; the top-level call supplies fuel larger
than the input can consume). -/
def parseVal : Nat → List Char → Option (JsValue × List Char)
  | 0, _ => none
  | fuel + 1, cs =>
    match skipWs cs with
    | [] => none
    | c :: rest =>
      if c = 'n' then
        match rest with
        | 'u' :: 'l' :: 'l' :: r => some (JsValue.null, r)
        | _ => none
      else if c = 't' then
        match rest with
        | 'r' :: 'u' :: 'e' :: r => some (JsValue.bool true, r)
        | _ => none
      else if c = 'f' then
        match rest with
        | 'a' :: 'l' :: 's' :: 'e' :: r => some (JsValue.bool false, r)
        | _ => none
      else if c = '"' then
        match parseStringBody rest with
        | some (s, r) => some (JsValue.str (String.mk s), r)
        | none => none
      else if c = '[' then
        match skipWs rest with
        | [] => none
        | d :: r2 =>
          if d = ']' then some (JsValue.arr [], r2)
          else
            match parseVal fuel (d :: r2) with
            | some (v, r3) =>
              match parseArrTail fuel r3 with
              | some (vs, r4) => some (JsValue.arr (v :: vs), r4)
              | none => none
            | none => none
      else if c = '\x7b' then
        match skipWs rest with
        | [] => none
        | d :: r2 =>
          if d = '\x7d' then some (JsValue.obj [], r2)
          else
            match parseMemb fuel (d :: r2) with
            | some (m, r3) =>
              match parseObjTail fuel r3 with
              | some (ms, r4) => some (JsValue.obj (m :: ms), r4)
              | none => none
            | none => none
      else parseNum (c :: rest)

/-- Parse one object member: quoted key, colon, value. -/
def parseMemb : Nat → List Char → Option ((String × JsValue) × List Char)
  | 0, _ => none
  | fuel + 1, cs =>
    match skipWs cs with
    | [] => none
    | c :: r =>
      if c = '"' then
        match parseStringBody r with
        | some (k, r1) =>
          match skipWs r1 with
          | [] => none
          | d :: r2 =>
            if d = ':' then
              match parseVal fuel r2 with
              | some (v, r3) => some ((String.mk k, v), r3)
              | none => none
            else none
        | none => none
      else none

/-- Parse the rest of an array after one element: a close bracket, or a
comma followed by an element and more of the same. -/
def parseArrTail : Nat → List Char → Option (List JsValue × List Char)
  | 0, _ => none
  | fuel + 1, cs =>
    match skipWs cs with
    | [] => none
    | c :: r =>
      if c = ']' then some ([], r)
      else if c = ',' then
        match parseVal fuel r with
        | some (v, r1) =>
          match parseArrTail fuel r1 with
          | some (vs, r2) => some (v :: vs, r2)
          | none => none
        | none => none
      else none

/-- Parse the rest of an object after one member. -/
def parseObjTail : Nat → List Char → Option (List (String × JsValue) × List Char)
  | 0, _ => none
  | fuel + 1, cs =>
    match skipWs cs with
    | [] => none
    | c :: r =>
      if c = '\x7d' then some ([], r)
      else if c = ',' then
        match parseMemb fuel r with
        | some (m, r1) =>
          match parseObjTail fuel r1 with
          | some (ms, r2) => some (m :: ms, r2)
          | none => none
        | none => none
      else none

end

/-- JSON.parse as a total function: some value on success, none where
JSON.parse would throw. -/
def deserialize (s : String) : Option JsValue :=
  match parseVal (2 * s.length + 2) s.data with
  | some (v, rest) => if skipWs rest = [] then some v else none
  | none => none

/-- One stored Redis value with its optional absolute expiry time. -/
structure Entry where
  value : String
  expiry : Option Nat

/-- State of the modelled Redis client: the node client's open flag, the
module-level isConnected flag of redis.ts, the key space, and the current
time in seconds. -/
structure RedisState where
  isOpen : Bool
  isConnected : Bool
  store : List (String × Entry)
  now : Nat

/-- A cache-layer computation: state passing plus an explicit error
standing for a rejected promise (a thrown exception). -/
def RedisM (α : Type) : Type := RedisState → Except Unit α × RedisState

instance : Monad RedisM where
  pure a := fun st => (Except.ok a, st)
  bind m f := fun st =>
    match m st with
    | (Except.ok a, st1) => f a st1
    | (Except.error e, st1) => (Except.error e, st1)

/-- A rejected store call; the error carries no data. -/
def throwE {α : Type} : RedisM α := fun st => (Except.error (), st)

/-- A JS try/catch whose catch block ignores the error and returns a
default value: the shape of every exported cache function. -/
def tryCatchD {α : Type} (m : RedisM α) (d : α) : RedisM α := fun st =>
  match m st with
  | (Except.error _, st1) => (Except.ok d, st1)
  | (Except.ok a, st1) => (Except.ok a, st1)

/-- First binding of a key in the store, expired entries included. -/
def findEntry (k : String) : List (String × Entry) → Option Entry
  | [] => none
  | p :: rest => if p.1 = k then some p.2 else findEntry k rest

/-- Remove every binding of a key. -/
def eraseKey (k : String) (l : List (String × Entry)) : List (String × Entry) :=
  l.filter (fun p => decide (p.1 ≠ k))

/-- Is an entry still live at the given time?  A key expires exactly when
its TTL has fully elapsed. -/
def entryLive (now : Nat) (e : Entry) : Bool :=
  match e.expiry with
  | none => true
  | some t => decide (now < t)

/-- The live value of a key: absent if never set or expired. -/
def liveValue (st : RedisState) (k : String) : Option String :=
  match findEntry k st.store with
  | some e => if entryLive st.now e then some e.value else none
  | none => none

/-- Write a key, replacing any previous binding. -/
def setEntry (k v : String) (exp : Option Nat) (st : RedisState) : RedisState :=
  { st with store := (k, Entry.mk v exp) :: eraseKey k st.store }

/-- Guard shared by every modelled client call: the node-redis client
rejects every command while it is not open, and the per-call fault flag
injects a store-side failure of this one call. -/
def callOk (st : RedisState) (fault : Bool) : Bool := st.isOpen && !fault

/-- redisClient.get. -/
def redisGet (fault : Bool) (k : String) : RedisM (Option String) := fun st =>
  if callOk st fault then (Except.ok (liveValue st k), st) else (Except.error (), st)

/-- redisClient.setEx: write a value with a TTL in seconds. -/
def redisSetEx (fault : Bool) (k : String) (ttl : Nat) (v : String) : RedisM Unit := fun st =>
  if callOk st fault then (Except.ok (), setEntry k v (some (st.now + ttl)) st)
  else (Except.error (), st)

/-- redisClient.del on a batch of keys (a single-key del passes a
one-element batch); returns the number of bindings removed. -/
def redisDel (fault : Bool) (ks : List String) : RedisM Nat := fun st =>
  if callOk st fault then
    (Except.ok (st.store.filter (fun p => ks.contains p.1)).length,
     { st with store := st.store.filter (fun p => !(ks.contains p.1)) })
  else (Except.error (), st)

/-- redisClient.exists: 1 if the key is live, else 0. -/
def redisExists (fault : Bool) (k : String) : RedisM Nat := fun st =>
  if callOk st fault then
    (Except.ok (match liveValue st k with | some _ => 1 | none => 0), st)
  else (Except.error (), st)

/-- Digits of a canonically written natural number: no leading zero. -/
def parseCanonNat (ds : List Char) : Option Nat :=
  match ds with
  | [] => none
  | c :: rest =>
    if c = '0' then (if rest.isEmpty then some 0 else none)
    else if c.isDigit && rest.all (fun d => d.isDigit) then
      some (rest.foldl (fun a d => a * 10 + digitVal d) (digitVal c))
    else none

/-- Redis accepts INCR only on a canonically written integer (string2ll). -/
def parseStoredInt (s : String) : Option Int :=
  match s.data with
  | '-' :: ds =>
    (match parseCanonNat ds with
     | some 0 => none
     | some n => some (-(n : Int))
     | none => none)
  | ds =>
    (match parseCanonNat ds with
     | some n => some ((n : Int))
     | none => none)

/-- Largest signed 64-bit integer; INCR past it is an error. -/
def int64Max : Int := 9223372036854775807

/-- redisClient.incr: create the key at 1 with no expiry, or increment the
stored integer keeping its expiry. -/
def redisIncr (fault : Bool) (k : String) : RedisM Int := fun st =>
  if callOk st fault then
    match findEntry k st.store with
    | some e =>
      if entryLive st.now e then
        match parseStoredInt e.value with
        | some n =>
          if n + 1 ≤ int64Max then
            (Except.ok (n + 1), setEntry k (toString (n + 1)) e.expiry st)
          else (Except.error (), st)
        | none => (Except.error (), st)
      else (Except.ok 1, setEntry k ("1") none st)
    | none => (Except.ok 1, setEntry k ("1") none st)
  else (Except.error (), st)

/-- redisClient.expire: set a fresh TTL on a live key; false if absent. -/
def redisExpire (fault : Bool) (k : String) (secs : Nat) : RedisM Bool := fun st =>
  if callOk st fault then
    match findEntry k st.store with
    | some e =>
      if entryLive st.now e then
        (Except.ok true, setEntry k e.value (some (st.now + secs)) st)
      else (Except.ok false, st)
    | none => (Except.ok false, st)
  else (Except.error (), st)

/-- Does d fall in the (possibly reversed) range a-b? -/
def rangeHit (a b d : Char) : Bool :=
  decide (Nat.min a.toNat b.toNat ≤ d.toNat) && decide (d.toNat ≤ Nat.max a.toNat b.toNat)

def classScan (d : Char) (p : List Char) (m : Bool) : Bool × List Char :=
  match p, m with
  | [], m => (m, [])
  | [c], m =>
    if c = ']' then (m, [])
    else (m || c == d, [])
  | [c, e], m =>
    if c = ']' then (m, [e])
    else if c = '\\' then (m || e == d, [])
    else classScan d [e] (m || c == d)
  | c :: e :: e2 :: p3, m =>
    if c = ']' then (m, e :: e2 :: p3)
    else if c = '\\' then classScan d (e2 :: p3) (m || e == d)
    else if e = '-' then classScan d p3 (m || rangeHit c e2 d)
    else classScan d (e :: e2 :: p3) (m || c == d)
termination_by p.length
decreasing_by all_goals (simp only [List.length_cons]; omega)

/-- Character class with its optional leading negation. -/
def classMatch (d : Char) (p : List Char) : Bool × List Char :=
  match p with
  | [] => classScan d [] false
  | c :: p2 =>
    if c = '^' then (!(classScan d p2 false).1, (classScan d p2 false).2)
    else classScan d (c :: p2) false

/-- Redis KEYS glob matching, after util.c stringmatchlen (case-sensitive),
written with explicit fuel; every recursive call shrinks the combined
length of pattern and subject, so fuel beyond that sum never runs out. -/
def globMatchF : Nat → List Char → List Char → Bool
  | 0, _, _ => false
  | fuel + 1, p, s =>
    match p, s with
    | [], s => s.isEmpty
    | c :: p2, s =>
      if c = '*' then
        (globMatchF fuel p2 s ||
          (match s with
           | [] => false
           | _ :: s2 => globMatchF fuel (c :: p2) s2))
      else
        match s with
        | [] => false
        | d :: s2 =>
          if c = '?' then globMatchF fuel p2 s2
          else if c = '[' then
            (classMatch d p2).1 && globMatchF fuel (classMatch d p2).2 s2
          else if c = '\\' then
            match p2 with
            | e :: p3 => (e == d) && globMatchF fuel p3 s2
            | [] => (c == d) && s2.isEmpty
          else (c == d) && globMatchF fuel p2 s2

/-- Redis KEYS glob matching at full fuel. -/
def globMatch (p s : List Char) : Bool :=
  globMatchF (p.length + s.length + 1) p s

/-- redisClient.keys: every live key matching the glob pattern. -/
def redisKeys (fault : Bool) (pat : String) : RedisM (List String) := fun st =>
  if callOk st fault then
    (Except.ok (((st.store.filter (fun p => entryLive st.now p.2)).map
        (fun p => p.1)).filter (fun k => globMatch pat.data k.data)), st)
  else (Except.error (), st)

/-- redisClient.info: an opaque stats report, modelled as a constant. -/
def redisInfo (fault : Bool) (_sect : String) : RedisM String := fun st =>
  if callOk st fault then (Except.ok ("# Stats"), st) else (Except.error (), st)

/-- redisClient.dbSize: the number of live keys. -/
def redisDbSize (fault : Bool) : RedisM Nat := fun st =>
  if callOk st fault then
    (Except.ok (st.store.filter (fun p => entryLive st.now p.2)).length, st)
  else (Except.error (), st)

/-- redis.ts connectRedis: connect only when neither the module-level flag
nor the client reports a connection; a failed connect attempt is caught
and logged inside this function, so connectRedis itself never rejects.
The cf argument tells whether that connect attempt would fail. -/
def connectRedis (cf : Bool) : RedisM Unit := fun st =>
  if !st.isConnected && !st.isOpen then
    if cf then (Except.ok (), st)
    else (Except.ok (), { st with isOpen := true, isConnected := true })
  else (Except.ok (), st)

/-- cache.ts ensureConnection: await connectRedis and return true, with a
catch block returning false. -/
def ensureConnection (cf : Bool) : RedisM Bool :=
  tryCatchD (do
    connectRedis cf
    pure true) false

/-- CACHE_TTL.USER from cache.ts, in seconds. -/
def ttlUSER : Nat := 3600

/-- CACHE_TTL.TASKS from cache.ts, in seconds. -/
def ttlTASKS : Nat := 300

/-- CACHE_TTL.TASK from cache.ts, in seconds. -/
def ttlTASK : Nat := 600

/-- CACHE_TTL.SESSION from cache.ts, in seconds. -/
def ttlSESSION : Nat := 7 * 24 * 60 * 60

/-- The JS body `return cached ? JSON.parse(cached) : null`: a missing or
empty (falsy) string yields null without parsing; otherwise JSON.parse
runs and a parse failure is a thrown exception. -/
def parseCached (cached : Option String) : RedisM JsValue :=
  match cached with
  | some s =>
    if s = ("") then pure JsValue.null
    else
      match deserialize s with
      | some v => pure v
      | none => throwE
  | none => pure JsValue.null

/-- cache.ts getCachedUser.  cf: the connect attempt fails; gf: the store
get call fails. -/
def getCachedUser (cf gf : Bool) (userId : String) : RedisM JsValue :=
  tryCatchD (do
    let c ← ensureConnection cf
    if !c then pure JsValue.null
    else do
      let cached ← redisGet gf (("user:") ++ userId)
      parseCached cached)
    JsValue.null

/-- cache.ts setCachedUser. -/
def setCachedUser (cf sf : Bool) (userId : String) (userData : JsValue) : RedisM Unit :=
  tryCatchD (do
    let c ← ensureConnection cf
    if !c then pure ()
    else redisSetEx sf (("user:") ++ userId) ttlUSER (stringify userData))
    ()

/-- cache.ts invalidateUserCache. -/
def invalidateUserCache (cf df : Bool) (userId : String) : RedisM Unit :=
  tryCatchD (do
    let c ← ensureConnection cf
    if !c then pure ()
    else do
      let _ ← redisDel df [("user:") ++ userId]
      pure ())
    ()

/-- cache.ts getCachedTasks. -/
def getCachedTasks (cf gf : Bool) (userId : String) : RedisM JsValue :=
  tryCatchD (do
    let c ← ensureConnection cf
    if !c then pure JsValue.null
    else do
      let cached ← redisGet gf (("tasks:") ++ userId)
      parseCached cached)
    JsValue.null

/-- cache.ts setCachedTasks: the task list is serialized as a JSON array. -/
def setCachedTasks (cf sf : Bool) (userId : String) (tasks : List JsValue) : RedisM Unit :=
  tryCatchD (do
    let c ← ensureConnection cf
    if !c then pure ()
    else redisSetEx sf (("tasks:") ++ userId) ttlTASKS (stringify (JsValue.arr tasks)))
    ()

/-- cache.ts invalidateTasksCache. -/
def invalidateTasksCache (cf df : Bool) (userId : String) : RedisM Unit :=
  tryCatchD (do
    let c ← ensureConnection cf
    if !c then pure ()
    else do
      let _ ← redisDel df [("tasks:") ++ userId]
      pure ())
    ()

/-- cache.ts getCachedTask. -/
def getCachedTask (cf gf : Bool) (taskId : String) : RedisM JsValue :=
  tryCatchD (do
    let c ← ensureConnection cf
    if !c then pure JsValue.null
    else do
      let cached ← redisGet gf (("task:") ++ taskId)
      parseCached cached)
    JsValue.null

/-- cache.ts setCachedTask. -/
def setCachedTask (cf sf : Bool) (taskId : String) (task : JsValue) : RedisM Unit :=
  tryCatchD (do
    let c ← ensureConnection cf
    if !c then pure ()
    else redisSetEx sf (("task:") ++ taskId) ttlTASK (stringify task))
    ()

/-- Promise.all on two fire-and-forget store calls: both are issued, the
effects of both land, and the combined promise rejects if either
rejected.  (The two keys of the one call site are always distinct, so
sequencing the two atomic deletes is a faithful model of the concurrent
issue order.) -/
def promiseAll2 (a b : RedisM Nat) : RedisM Unit := fun st =>
  match a st with
  | (ra, st1) =>
    match b st1 with
    | (rb, st2) =>
      match ra, rb with
      | Except.ok _, Except.ok _ => (Except.ok (), st2)
      | _, _ => (Except.error (), st2)

/-- cache.ts invalidateTaskCache: fans out to both the task key and the
owner's task-list key. -/
def invalidateTaskCache (cf d1 d2 : Bool) (taskId userId : String) : RedisM Unit :=
  tryCatchD (do
    let c ← ensureConnection cf
    if !c then pure ()
    else promiseAll2 (redisDel d1 [("task:") ++ taskId]) (redisDel d2 [("tasks:") ++ userId]))
    ()

/-- The session key template of cache.ts. -/
def sessionKey (userId tokenId : String) : String :=
  ((("session:") ++ userId) ++ ((":") ++ tokenId))

/-- cache.ts storeSession: the raw token string is stored, not JSON. -/
def storeSession (cf sf : Bool) (userId tokenId token : String) : RedisM Unit :=
  tryCatchD (do
    let c ← ensureConnection cf
    if !c then pure ()
    else redisSetEx sf (sessionKey userId tokenId) ttlSESSION token)
    ()

/-- cache.ts validateSession: an existence check that fails open (returns
true) when the store is unusable. -/
def validateSession (cf ef : Bool) (userId tokenId : String) : RedisM Bool :=
  tryCatchD (do
    let c ← ensureConnection cf
    if !c then pure true
    else do
      let ex ← redisExists ef (sessionKey userId tokenId)
      pure (ex == 1))
    true

/-- cache.ts revokeSession. -/
def revokeSession (cf df : Bool) (userId tokenId : String) : RedisM Unit :=
  tryCatchD (do
    let c ← ensureConnection cf
    if !c then pure ()
    else do
      let _ ← redisDel df [sessionKey userId tokenId]
      pure ())
    ()

/-- The glob pattern revokeAllUserSessions enumerates. -/
def sessionGlob (userId : String) : String :=
  ((("session:") ++ userId) ++ (":*"))

/-- cache.ts revokeAllUserSessions: enumerate the user's session keys,
then delete them in one batch when there are any. -/
def revokeAllUserSessions (cf kf df : Bool) (userId : String) : RedisM Unit :=
  tryCatchD (do
    let c ← ensureConnection cf
    if !c then pure ()
    else do
      let keys ← redisKeys kf (sessionGlob userId)
      if keys.length > 0 then do
        let _ ← redisDel df keys
        pure ()
      else pure ())
    ()

/-- The result record of checkRateLimit. -/
structure RateResult where
  allowed : Bool
  remaining : Int
deriving DecidableEq

/-- The rate-limit counter key template of cache.ts. -/
def rateKey (userId endp : String) : String :=
  ((("ratelimit:") ++ userId) ++ ((":") ++ endp))

/-- cache.ts checkRateLimit: increment the per-user-per-endpoint counter,
start the 60-second window when the counter was just created, and fail
open on store failure. -/
def checkRateLimit (cf icf exf : Bool) (userId endp : String) (maxRequests : Int) :
    RedisM RateResult :=
  tryCatchD (do
    let c ← ensureConnection cf
    if !c then pure (RateResult.mk true maxRequests)
    else do
      let current ← redisIncr icf (rateKey userId endp)
      if current = 1 then do
        let _ ← redisExpire exf (rateKey userId endp) 60
        pure (RateResult.mk (decide (current ≤ maxRequests)) (max 0 (maxRequests - current)))
      else
        pure (RateResult.mk (decide (current ≤ maxRequests)) (max 0 (maxRequests - current))))
    (RateResult.mk true maxRequests)

/-- The result record of getCacheStats; errMsg models the stringified
caught error. -/
structure CacheStats where
  connected : Bool
  dbSize : Option Nat
  info : Option String
  errMsg : Option String
deriving DecidableEq

/-- cache.ts getCacheStats. -/
def getCacheStats (cf nf bf : Bool) : RedisM CacheStats :=
  tryCatchD (do
    let c ← ensureConnection cf
    if !c then pure (CacheStats.mk false none none none)
    else do
      let info ← redisInfo nf ("stats")
      let db ← redisDbSize bf
      pure (CacheStats.mk true (some db) (some info) none))
    (CacheStats.mk false none none (some ("store failure")))

/-- Did a computation finish without a rejected promise? -/
def isOkE {α : Type} (r : Except Unit α) : Bool :=
  match r with
  | Except.ok _ => true
  | Except.error _ => false

theorem bind_run {α β : Type} (m : RedisM α) (f : α → RedisM β) (st : RedisState) :
    (m >>= f) st = match m st with
      | (Except.ok a, st1) => f a st1
      | (Except.error e, st1) => (Except.error e, st1) := rfl

theorem pure_run {α : Type} (a : α) (st : RedisState) :
    (pure a : RedisM α) st = (Except.ok a, st) := rfl

theorem tryCatchD_run {α : Type} (m : RedisM α) (d : α) (st : RedisState) :
    tryCatchD m d st = match m st with
      | (Except.error _, st1) => (Except.ok d, st1)
      | (Except.ok a, st1) => (Except.ok a, st1) := rfl

/-- Every function built as a try/catch with a value-returning catch block
settles without an error, whatever the try block did. -/
theorem tryCatchD_ok {α : Type} (m : RedisM α) (d : α) (st : RedisState) :
    isOkE (tryCatchD m d st).1 = true := by
  rw [tryCatchD_run]
  rcases m st with ⟨r, st1⟩
  cases r <;> rfl

/-- The connection state ensureConnection leaves behind. -/
def afterConnect (cf : Bool) (st : RedisState) : RedisState :=
  if !st.isConnected && !st.isOpen && !cf then
    { st with isOpen := true, isConnected := true }
  else st

theorem connectRedis_run (cf : Bool) (st : RedisState) :
    connectRedis cf st = (Except.ok (), afterConnect cf st) := by
  unfold connectRedis afterConnect
  cases hc : st.isConnected <;> cases ho : st.isOpen <;> cases cf <;> simp

/-- ensureConnection never rejects and always returns true: redis.ts
connectRedis absorbs its own connect failures, so the catch branch in
cache.ts ensureConnection is unreachable. -/
theorem ensureConnection_run (cf : Bool) (st : RedisState) :
    ensureConnection cf st = (Except.ok true, afterConnect cf st) := by
  unfold ensureConnection
  rw [tryCatchD_run, bind_run, connectRedis_run]

theorem afterConnect_open {st : RedisState} (h : st.isOpen = true) (cf : Bool) :
    afterConnect cf st = st := by
  unfold afterConnect
  rw [h]
  simp

theorem afterConnect_down (st : RedisState) :
    afterConnect true st = st := by
  unfold afterConnect
  simp

theorem parseCached_run (cached : Option String) (st : RedisState) :
    parseCached cached st =
      (match cached with
       | some s =>
         if s = ("") then (Except.ok JsValue.null, st)
         else
           match deserialize s with
           | some v => (Except.ok v, st)
           | none => (Except.error (), st)
       | none => (Except.ok JsValue.null, st)) := by
  rcases cached with _ | s
  · rfl
  · simp only [parseCached]
    split
    · rfl
    · rcases deserialize s with _ | v <;> rfl

/-- The value a cache get produces from an open store: a missing or empty
or unparsable payload yields null, any other payload its parse. -/
def getResult (st : RedisState) (k : String) : JsValue :=
  match liveValue st k with
  | some s => if s = ("") then JsValue.null else (deserialize s).getD JsValue.null
  | none => JsValue.null

theorem getCachedUser_down {st : RedisState} (h : st.isOpen = false) (gf : Bool) (u : String) :
    getCachedUser true gf u st = (Except.ok JsValue.null, st) := by
  unfold getCachedUser
  rw [tryCatchD_run, bind_run, ensureConnection_run, afterConnect_down]
  simp [bind_run, redisGet, callOk, h]

theorem getCachedTasks_down {st : RedisState} (h : st.isOpen = false) (gf : Bool) (u : String) :
    getCachedTasks true gf u st = (Except.ok JsValue.null, st) := by
  unfold getCachedTasks
  rw [tryCatchD_run, bind_run, ensureConnection_run, afterConnect_down]
  simp [bind_run, redisGet, callOk, h]

theorem getCachedTask_down {st : RedisState} (h : st.isOpen = false) (gf : Bool) (t : String) :
    getCachedTask true gf t st = (Except.ok JsValue.null, st) := by
  unfold getCachedTask
  rw [tryCatchD_run, bind_run, ensureConnection_run, afterConnect_down]
  simp [bind_run, redisGet, callOk, h]

theorem getCachedUser_fault {st : RedisState} (h : st.isOpen = true) (cf : Bool) (u : String) :
    getCachedUser cf true u st = (Except.ok JsValue.null, st) := by
  unfold getCachedUser
  rw [tryCatchD_run, bind_run, ensureConnection_run, afterConnect_open h]
  simp [bind_run, redisGet, callOk, h]

theorem getCachedTasks_fault {st : RedisState} (h : st.isOpen = true) (cf : Bool) (u : String) :
    getCachedTasks cf true u st = (Except.ok JsValue.null, st) := by
  unfold getCachedTasks
  rw [tryCatchD_run, bind_run, ensureConnection_run, afterConnect_open h]
  simp [bind_run, redisGet, callOk, h]

theorem getCachedTask_fault {st : RedisState} (h : st.isOpen = true) (cf : Bool) (t : String) :
    getCachedTask cf true t st = (Except.ok JsValue.null, st) := by
  unfold getCachedTask
  rw [tryCatchD_run, bind_run, ensureConnection_run, afterConnect_open h]
  simp [bind_run, redisGet, callOk, h]

theorem getCachedUser_open {st : RedisState} (h : st.isOpen = true) (cf : Bool) (u : String) :
    getCachedUser cf false u st = (Except.ok (getResult st (("user:") ++ u)), st) := by
  unfold getCachedUser getResult
  rw [tryCatchD_run, bind_run, ensureConnection_run, afterConnect_open h]
  simp only [Bool.not_true, Bool.false_eq_true, if_false, bind_run]
  simp only [redisGet, callOk, h, Bool.not_false, Bool.and_self, if_true, if_pos]
  rw [parseCached_run]
  rcases hlv : liveValue st (("user:") ++ u) with _ | s
  · rfl
  · simp only
    by_cases hs : s = ("")
    · simp [hs]
    · rcases hds : deserialize s with _ | v <;> simp [hs, hds]

theorem getCachedTasks_open {st : RedisState} (h : st.isOpen = true) (cf : Bool) (u : String) :
    getCachedTasks cf false u st = (Except.ok (getResult st (("tasks:") ++ u)), st) := by
  unfold getCachedTasks getResult
  rw [tryCatchD_run, bind_run, ensureConnection_run, afterConnect_open h]
  simp only [Bool.not_true, Bool.false_eq_true, if_false, bind_run]
  simp only [redisGet, callOk, h, Bool.not_false, Bool.and_self, if_true, if_pos]
  rw [parseCached_run]
  rcases hlv : liveValue st (("tasks:") ++ u) with _ | s
  · rfl
  · simp only
    by_cases hs : s = ("")
    · simp [hs]
    · rcases hds : deserialize s with _ | v <;> simp [hs, hds]

theorem getCachedTask_open {st : RedisState} (h : st.isOpen = true) (cf : Bool) (t : String) :
    getCachedTask cf false t st = (Except.ok (getResult st (("task:") ++ t)), st) := by
  unfold getCachedTask getResult
  rw [tryCatchD_run, bind_run, ensureConnection_run, afterConnect_open h]
  simp only [Bool.not_true, Bool.false_eq_true, if_false, bind_run]
  simp only [redisGet, callOk, h, Bool.not_false, Bool.and_self, if_true, if_pos]
  rw [parseCached_run]
  rcases hlv : liveValue st (("task:") ++ t) with _ | s
  · rfl
  · simp only
    by_cases hs : s = ("")
    · simp [hs]
    · rcases hds : deserialize s with _ | v <;> simp [hs, hds]

theorem setCachedUser_down {st : RedisState} (h : st.isOpen = false) (sf : Bool)
    (u : String) (v : JsValue) :
    setCachedUser true sf u v st = (Except.ok (), st) := by
  unfold setCachedUser
  rw [tryCatchD_run, bind_run, ensureConnection_run, afterConnect_down]
  simp [redisSetEx, callOk, h]

theorem setCachedTasks_down {st : RedisState} (h : st.isOpen = false) (sf : Bool)
    (u : String) (vs : List JsValue) :
    setCachedTasks true sf u vs st = (Except.ok (), st) := by
  unfold setCachedTasks
  rw [tryCatchD_run, bind_run, ensureConnection_run, afterConnect_down]
  simp [redisSetEx, callOk, h]

theorem setCachedTask_down {st : RedisState} (h : st.isOpen = false) (sf : Bool)
    (t : String) (v : JsValue) :
    setCachedTask true sf t v st = (Except.ok (), st) := by
  unfold setCachedTask
  rw [tryCatchD_run, bind_run, ensureConnection_run, afterConnect_down]
  simp [redisSetEx, callOk, h]

theorem setCachedUser_fault {st : RedisState} (h : st.isOpen = true) (cf : Bool)
    (u : String) (v : JsValue) :
    setCachedUser cf true u v st = (Except.ok (), st) := by
  unfold setCachedUser
  rw [tryCatchD_run, bind_run, ensureConnection_run, afterConnect_open h]
  simp [redisSetEx, callOk, h]

theorem setCachedTasks_fault {st : RedisState} (h : st.isOpen = true) (cf : Bool)
    (u : String) (vs : List JsValue) :
    setCachedTasks cf true u vs st = (Except.ok (), st) := by
  unfold setCachedTasks
  rw [tryCatchD_run, bind_run, ensureConnection_run, afterConnect_open h]
  simp [redisSetEx, callOk, h]

theorem setCachedTask_fault {st : RedisState} (h : st.isOpen = true) (cf : Bool)
    (t : String) (v : JsValue) :
    setCachedTask cf true t v st = (Except.ok (), st) := by
  unfold setCachedTask
  rw [tryCatchD_run, bind_run, ensureConnection_run, afterConnect_open h]
  simp [redisSetEx, callOk, h]

theorem setCachedUser_open {st : RedisState} (h : st.isOpen = true) (cf : Bool)
    (u : String) (v : JsValue) :
    setCachedUser cf false u v st =
      (Except.ok (), setEntry (("user:") ++ u) (stringify v) (some (st.now + ttlUSER)) st) := by
  unfold setCachedUser
  rw [tryCatchD_run, bind_run, ensureConnection_run, afterConnect_open h]
  simp [redisSetEx, callOk, h]

theorem setCachedTasks_open {st : RedisState} (h : st.isOpen = true) (cf : Bool)
    (u : String) (vs : List JsValue) :
    setCachedTasks cf false u vs st =
      (Except.ok (), setEntry (("tasks:") ++ u) (stringify (JsValue.arr vs))
        (some (st.now + ttlTASKS)) st) := by
  unfold setCachedTasks
  rw [tryCatchD_run, bind_run, ensureConnection_run, afterConnect_open h]
  simp [redisSetEx, callOk, h]

theorem setCachedTask_open {st : RedisState} (h : st.isOpen = true) (cf : Bool)
    (t : String) (v : JsValue) :
    setCachedTask cf false t v st =
      (Except.ok (), setEntry (("task:") ++ t) (stringify v) (some (st.now + ttlTASK)) st) := by
  unfold setCachedTask
  rw [tryCatchD_run, bind_run, ensureConnection_run, afterConnect_open h]
  simp [redisSetEx, callOk, h]

/-- The state after a successful batch delete. -/
def delKeys (ks : List String) (st : RedisState) : RedisState :=
  { st with store := st.store.filter (fun p => !(ks.contains p.1)) }

theorem invalidateUserCache_down {st : RedisState} (h : st.isOpen = false) (df : Bool)
    (u : String) :
    invalidateUserCache true df u st = (Except.ok (), st) := by
  unfold invalidateUserCache
  rw [tryCatchD_run, bind_run, ensureConnection_run, afterConnect_down]
  simp [bind_run, redisDel, callOk, h]

theorem invalidateTasksCache_down {st : RedisState} (h : st.isOpen = false) (df : Bool)
    (u : String) :
    invalidateTasksCache true df u st = (Except.ok (), st) := by
  unfold invalidateTasksCache
  rw [tryCatchD_run, bind_run, ensureConnection_run, afterConnect_down]
  simp [bind_run, redisDel, callOk, h]

theorem invalidateTaskCache_down {st : RedisState} (h : st.isOpen = false) (d1 d2 : Bool)
    (t u : String) :
    invalidateTaskCache true d1 d2 t u st = (Except.ok (), st) := by
  unfold invalidateTaskCache
  rw [tryCatchD_run, bind_run, ensureConnection_run, afterConnect_down]
  simp [promiseAll2, redisDel, callOk, h]

theorem invalidateUserCache_fault {st : RedisState} (h : st.isOpen = true) (cf : Bool)
    (u : String) :
    invalidateUserCache cf true u st = (Except.ok (), st) := by
  unfold invalidateUserCache
  rw [tryCatchD_run, bind_run, ensureConnection_run, afterConnect_open h]
  simp [bind_run, redisDel, callOk, h]

theorem invalidateTasksCache_fault {st : RedisState} (h : st.isOpen = true) (cf : Bool)
    (u : String) :
    invalidateTasksCache cf true u st = (Except.ok (), st) := by
  unfold invalidateTasksCache
  rw [tryCatchD_run, bind_run, ensureConnection_run, afterConnect_open h]
  simp [bind_run, redisDel, callOk, h]

theorem invalidateTaskCache_fault {st : RedisState} (h : st.isOpen = true) (cf : Bool)
    (t u : String) :
    invalidateTaskCache cf true true t u st = (Except.ok (), st) := by
  unfold invalidateTaskCache
  rw [tryCatchD_run, bind_run, ensureConnection_run, afterConnect_open h]
  simp [promiseAll2, redisDel, callOk, h]

theorem invalidateUserCache_open {st : RedisState} (h : st.isOpen = true) (cf : Bool)
    (u : String) :
    invalidateUserCache cf false u st = (Except.ok (), delKeys [("user:") ++ u] st) := by
  unfold invalidateUserCache delKeys
  rw [tryCatchD_run, bind_run, ensureConnection_run, afterConnect_open h]
  simp [bind_run, redisDel, callOk, h]

theorem invalidateTasksCache_open {st : RedisState} (h : st.isOpen = true) (cf : Bool)
    (u : String) :
    invalidateTasksCache cf false u st = (Except.ok (), delKeys [("tasks:") ++ u] st) := by
  unfold invalidateTasksCache delKeys
  rw [tryCatchD_run, bind_run, ensureConnection_run, afterConnect_open h]
  simp [bind_run, redisDel, callOk, h]

theorem invalidateTaskCache_open {st : RedisState} (h : st.isOpen = true) (cf : Bool)
    (t u : String) :
    invalidateTaskCache cf false false t u st =
      (Except.ok (), delKeys [("tasks:") ++ u] (delKeys [("task:") ++ t] st)) := by
  unfold invalidateTaskCache delKeys
  rw [tryCatchD_run, bind_run, ensureConnection_run, afterConnect_open h]
  simp [promiseAll2, redisDel, callOk, h]

theorem storeSession_down {st : RedisState} (h : st.isOpen = false) (sf : Bool)
    (u t tok : String) :
    storeSession true sf u t tok st = (Except.ok (), st) := by
  unfold storeSession
  rw [tryCatchD_run, bind_run, ensureConnection_run, afterConnect_down]
  simp [redisSetEx, callOk, h]

theorem storeSession_fault {st : RedisState} (h : st.isOpen = true) (cf : Bool)
    (u t tok : String) :
    storeSession cf true u t tok st = (Except.ok (), st) := by
  unfold storeSession
  rw [tryCatchD_run, bind_run, ensureConnection_run, afterConnect_open h]
  simp [redisSetEx, callOk, h]

theorem storeSession_open {st : RedisState} (h : st.isOpen = true) (cf : Bool)
    (u t tok : String) :
    storeSession cf false u t tok st =
      (Except.ok (), setEntry (sessionKey u t) tok (some (st.now + ttlSESSION)) st) := by
  unfold storeSession
  rw [tryCatchD_run, bind_run, ensureConnection_run, afterConnect_open h]
  simp [redisSetEx, callOk, h]

theorem validateSession_down {st : RedisState} (h : st.isOpen = false) (ef : Bool)
    (u t : String) :
    validateSession true ef u t st = (Except.ok true, st) := by
  unfold validateSession
  rw [tryCatchD_run, bind_run, ensureConnection_run, afterConnect_down]
  simp [bind_run, redisExists, callOk, h]

theorem validateSession_fault {st : RedisState} (h : st.isOpen = true) (cf : Bool)
    (u t : String) :
    validateSession cf true u t st = (Except.ok true, st) := by
  unfold validateSession
  rw [tryCatchD_run, bind_run, ensureConnection_run, afterConnect_open h]
  simp [bind_run, redisExists, callOk, h]

theorem validateSession_open {st : RedisState} (h : st.isOpen = true) (cf : Bool)
    (u t : String) :
    validateSession cf false u t st =
      (Except.ok (match liveValue st (sessionKey u t) with
        | some _ => true
        | none => false), st) := by
  unfold validateSession
  rw [tryCatchD_run, bind_run, ensureConnection_run, afterConnect_open h]
  simp only [Bool.not_true, Bool.false_eq_true, if_false, bind_run]
  simp only [redisExists, callOk, h, Bool.not_false, Bool.and_self, if_true, if_pos]
  rcases hlv : liveValue st (sessionKey u t) with _ | s <;> simp [pure_run]

theorem revokeSession_down {st : RedisState} (h : st.isOpen = false) (df : Bool)
    (u t : String) :
    revokeSession true df u t st = (Except.ok (), st) := by
  unfold revokeSession
  rw [tryCatchD_run, bind_run, ensureConnection_run, afterConnect_down]
  simp [bind_run, redisDel, callOk, h]

theorem revokeSession_fault {st : RedisState} (h : st.isOpen = true) (cf : Bool)
    (u t : String) :
    revokeSession cf true u t st = (Except.ok (), st) := by
  unfold revokeSession
  rw [tryCatchD_run, bind_run, ensureConnection_run, afterConnect_open h]
  simp [bind_run, redisDel, callOk, h]

theorem revokeSession_open {st : RedisState} (h : st.isOpen = true) (cf : Bool)
    (u t : String) :
    revokeSession cf false u t st = (Except.ok (), delKeys [sessionKey u t] st) := by
  unfold revokeSession delKeys
  rw [tryCatchD_run, bind_run, ensureConnection_run, afterConnect_open h]
  simp [bind_run, redisDel, callOk, h]

/-- The live keys a KEYS call reports for a pattern. -/
def matchingKeys (st : RedisState) (pat : String) : List String :=
  ((st.store.filter (fun p => entryLive st.now p.2)).map (fun p => p.1)).filter
    (fun k => globMatch pat.data k.data)

theorem revokeAllUserSessions_down {st : RedisState} (h : st.isOpen = false) (kf df : Bool)
    (u : String) :
    revokeAllUserSessions true kf df u st = (Except.ok (), st) := by
  unfold revokeAllUserSessions
  rw [tryCatchD_run, bind_run, ensureConnection_run, afterConnect_down]
  simp [bind_run, redisKeys, callOk, h]

theorem revokeAllUserSessions_keysfault {st : RedisState} (h : st.isOpen = true) (cf df : Bool)
    (u : String) :
    revokeAllUserSessions cf true df u st = (Except.ok (), st) := by
  unfold revokeAllUserSessions
  rw [tryCatchD_run, bind_run, ensureConnection_run, afterConnect_open h]
  simp [bind_run, redisKeys, callOk, h]

theorem revokeAllUserSessions_open {st : RedisState} (h : st.isOpen = true) (cf : Bool)
    (u : String) :
    revokeAllUserSessions cf false false u st =
      (Except.ok (),
       if (matchingKeys st (sessionGlob u)).length > 0 then
         delKeys (matchingKeys st (sessionGlob u)) st
       else st) := by
  unfold revokeAllUserSessions
  rw [tryCatchD_run, bind_run, ensureConnection_run, afterConnect_open h]
  simp only [Bool.not_true, Bool.false_eq_true, if_false, bind_run]
  simp only [redisKeys, callOk, h, Bool.not_false, Bool.and_self, if_true, if_pos]
  by_cases hlen : (matchingKeys st (sessionGlob u)).length > 0
  · have hlen2 := hlen
    simp only [matchingKeys] at hlen2
    simp only [hlen2, if_true, if_pos, bind_run, redisDel, callOk, h, Bool.not_false,
      Bool.and_self, pure_run]
    rw [if_pos hlen]
    simp [delKeys, matchingKeys, h]
  · have hlen2 := hlen
    simp only [matchingKeys] at hlen2
    simp only [hlen2, if_false, if_neg, pure_run]
    rw [if_neg hlen]

theorem getCacheStats_down {st : RedisState} (h : st.isOpen = false) (nf bf : Bool) :
    getCacheStats true nf bf st =
      (Except.ok (CacheStats.mk false none none (some ("store failure"))), st) := by
  unfold getCacheStats
  rw [tryCatchD_run, bind_run, ensureConnection_run, afterConnect_down]
  simp [bind_run, redisInfo, callOk, h]

theorem getCacheStats_fault {st : RedisState} (h : st.isOpen = true) (cf bf : Bool) :
    getCacheStats cf true bf st =
      (Except.ok (CacheStats.mk false none none (some ("store failure"))), st) := by
  unfold getCacheStats
  rw [tryCatchD_run, bind_run, ensureConnection_run, afterConnect_open h]
  simp [bind_run, redisInfo, callOk, h]

theorem getCacheStats_open {st : RedisState} (h : st.isOpen = true) (cf : Bool) :
    getCacheStats cf false false st =
      (Except.ok (CacheStats.mk true
        (some (st.store.filter (fun p => entryLive st.now p.2)).length)
        (some ("# Stats")) none), st) := by
  unfold getCacheStats
  rw [tryCatchD_run, bind_run, ensureConnection_run, afterConnect_open h]
  simp [bind_run, redisInfo, redisDbSize, callOk, h]

theorem checkRateLimit_down {st : RedisState} (h : st.isOpen = false) (icf exf : Bool)
    (u ep : String) (m : Int) :
    checkRateLimit true icf exf u ep m st = (Except.ok (RateResult.mk true m), st) := by
  unfold checkRateLimit
  rw [tryCatchD_run, bind_run, ensureConnection_run, afterConnect_down]
  simp [bind_run, redisIncr, callOk, h]

theorem checkRateLimit_fault {st : RedisState} (h : st.isOpen = true) (cf exf : Bool)
    (u ep : String) (m : Int) :
    checkRateLimit cf true exf u ep m st = (Except.ok (RateResult.mk true m), st) := by
  unfold checkRateLimit
  rw [tryCatchD_run, bind_run, ensureConnection_run, afterConnect_open h]
  simp [bind_run, redisIncr, callOk, h]

theorem checkRateLimit_fresh {st : RedisState} (h : st.isOpen = true) (cf : Bool)
    (u ep : String) (m : Int)
    (hkey : liveValue st (rateKey u ep) = none) :
    checkRateLimit cf false false u ep m st =
      (Except.ok (RateResult.mk (decide (1 ≤ m)) (max 0 (m - 1))),
       setEntry (rateKey u ep) ("1") (some (st.now + 60))
         (setEntry (rateKey u ep) ("1") none st)) := by
  unfold checkRateLimit
  rw [tryCatchD_run, bind_run, ensureConnection_run, afterConnect_open h]
  simp only [Bool.not_true, Bool.false_eq_true, if_false, bind_run]
  unfold liveValue at hkey
  rcases hf : findEntry (rateKey u ep) st.store with _ | en
  · simp only [redisIncr, callOk, h, Bool.not_false, Bool.and_self, if_true, if_pos, hf]
    simp only [if_pos rfl, bind_run, redisExpire, callOk, h, Bool.not_false, Bool.and_self,
      if_true, setEntry, findEntry, eraseKey]
    simp [entryLive, pure_run, setEntry, eraseKey]
  · rw [hf] at hkey
    simp only at hkey
    have hdead : entryLive st.now en = false := by
      by_cases hl : entryLive st.now en = true
      · rw [if_pos hl] at hkey; exact absurd hkey (by simp)
      · simpa using hl
    simp only [redisIncr, callOk, h, Bool.not_false, Bool.and_self, if_true, if_pos, hf, hdead,
      Bool.false_eq_true, if_false]
    simp only [if_pos rfl, bind_run, redisExpire, callOk, h, Bool.not_false, Bool.and_self,
      if_true, setEntry, findEntry, eraseKey]
    simp [entryLive, pure_run, setEntry, eraseKey]

theorem checkRateLimit_incr {st : RedisState} (h : st.isOpen = true) (cf : Bool)
    (u ep : String) (m : Int) {en : Entry} {n : Int}
    (hkey : findEntry (rateKey u ep) st.store = some en)
    (hlive : entryLive st.now en = true)
    (hn : parseStoredInt en.value = some n)
    (hmax : n + 1 ≤ int64Max) (hone : ¬(n + 1 = 1)) :
    checkRateLimit cf false false u ep m st =
      (Except.ok (RateResult.mk (decide (n + 1 ≤ m)) (max 0 (m - (n + 1)))),
       setEntry (rateKey u ep) (toString (n + 1)) en.expiry st) := by
  unfold checkRateLimit
  rw [tryCatchD_run, bind_run, ensureConnection_run, afterConnect_open h]
  simp only [Bool.not_true, Bool.false_eq_true, if_false, bind_run]
  simp only [redisIncr, callOk, h, Bool.not_false, Bool.and_self, if_true, if_pos, hkey, hlive,
    hn, hmax]
  rw [if_neg hone]

theorem checkRateLimit_incr_one {st : RedisState} (h : st.isOpen = true) (cf : Bool)
    (u ep : String) (m : Int) {en : Entry}
    (hkey : findEntry (rateKey u ep) st.store = some en)
    (hlive : entryLive st.now en = true)
    (hn : parseStoredInt en.value = some 0) :
    checkRateLimit cf false false u ep m st =
      (Except.ok (RateResult.mk (decide (1 ≤ m)) (max 0 (m - 1))),
       setEntry (rateKey u ep) (toString (0 + 1 : Int)) (some (st.now + 60))
         (setEntry (rateKey u ep) (toString (0 + 1 : Int)) en.expiry st)) := by
  unfold checkRateLimit
  rw [tryCatchD_run, bind_run, ensureConnection_run, afterConnect_open h]
  simp only [Bool.not_true, Bool.false_eq_true, if_false, bind_run]
  have hmax : (0 : Int) + 1 ≤ int64Max := by unfold int64Max; omega
  simp only [redisIncr, callOk, h, Bool.not_false, Bool.and_self, if_true, if_pos, hkey, hlive,
    hn, hmax]
  rw [if_pos (show (0 : Int) + 1 = 1 by norm_num)]
  simp only [bind_run, redisExpire, callOk, h, Bool.not_false, Bool.and_self, if_true,
    setEntry, findEntry, eraseKey]
  have hlive3 : entryLive st.now (Entry.mk (toString ((0 : Int) + 1)) en.expiry) = true := by
    simpa only [entryLive] using hlive
  rw [if_pos hlive3]
  simp [setEntry, eraseKey]

/-- The first character of rest does not extend a digit run. -/
def noDigitHead : List Char → Prop
  | [] => True
  | c :: _ => c.isDigit = false

def foldDigits (acc : Nat) (ds : List Char) : Nat :=
  ds.foldl (fun a c => a * 10 + digitVal c) acc

theorem digitChar_isDigit {k : Nat} (h : k < 10) : (Nat.digitChar k).isDigit = true := by
  interval_cases k <;> decide

theorem digitVal_digitChar {k : Nat} (h : k < 10) : digitVal (Nat.digitChar k) = k := by
  interval_cases k <;> decide

theorem natChars_all_digits (n : Nat) : ∀ c ∈ natChars n, c.isDigit = true := by
  induction n using Nat.strong_induction_on with
  | _ n ih =>
    rw [natChars]
    split
    · intro c hc
      simp at hc
      subst hc
      exact digitChar_isDigit (by omega)
    · intro c hc
      rw [List.mem_append] at hc
      rcases hc with hc | hc
      · exact ih (n / 10) (Nat.div_lt_self (by omega) (by omega)) c hc
      · simp at hc
        subst hc
        exact digitChar_isDigit (Nat.mod_lt n (by omega))
theorem natChars_ne_nil (n : Nat) : natChars n ≠ [] := by
  rw [natChars]
  split
  · simp
  · simp

theorem natChars_head_ne_zero (n : Nat) (h : 1 ≤ n) :
    ∀ c cs, natChars n = c :: cs → ¬(c = '0') := by
  induction n using Nat.strong_induction_on with
  | _ n ih =>
    rw [natChars]
    split
    · intro c cs hc
      simp at hc
      rcases hc with ⟨hc, _⟩
      subst hc
      intro hz
      rename_i h10
      interval_cases n
      all_goals exact absurd hz (by decide)
    · intro c cs hc hz
      rcases hd : natChars (n / 10) with _ | ⟨c0, cs0⟩
      · exact natChars_ne_nil _ hd
      · rw [hd] at hc
        simp at hc
        rcases hc with ⟨hc, _⟩
        subst hc
        exact ih (n / 10) (Nat.div_lt_self (by omega) (by omega))
          (Nat.one_le_div_iff (by omega) |>.mpr (by omega)) c0 cs0 hd hz

theorem foldDigits_append (acc : Nat) (ds : List Char) (c : Char) :
    foldDigits acc (ds ++ [c]) = (foldDigits acc ds) * 10 + digitVal c := by
  simp [foldDigits, List.foldl_append]

theorem foldDigits_natChars (n : Nat) :
    ∀ acc, foldDigits acc (natChars n) = acc * 10 ^ (natChars n).length + n := by
  induction n using Nat.strong_induction_on with
  | _ n ih =>
    intro acc
    rw [natChars]
    split
    · simp [foldDigits, digitVal_digitChar (by omega : n < 10)]
    · rw [foldDigits_append, ih (n / 10) (Nat.div_lt_self (by omega) (by omega)) acc]
      rw [digitVal_digitChar (Nat.mod_lt n (by omega))]
      rw [List.length_append]
      simp [pow_succ]
      ring_nf
      omega
theorem readDigits_run (ds : List Char) (hds : ∀ c ∈ ds, c.isDigit = true) :
    ∀ (rest : List Char), noDigitHead rest →
      ∀ acc, readDigits acc (ds ++ rest) = (foldDigits acc ds, rest) := by
  induction ds with
  | nil =>
    intro rest hrest acc
    cases rest with
    | nil => simp [readDigits, foldDigits]
    | cons c cs =>
      simp only [noDigitHead] at hrest
      simp [readDigits, hrest, foldDigits]
  | cons c ds ih =>
    intro rest hrest acc
    have hc : c.isDigit = true := hds c (by simp)
    simp only [List.cons_append, readDigits, hc, if_pos]
    change readDigits (acc * 10 + digitVal c) (ds ++ rest) = _
    rw [ih (fun d hd => hds d (by simp [hd])) rest hrest]
    simp [foldDigits]

theorem parseNatNum_print (n : Nat) (rest : List Char) (hrest : noDigitHead rest) :
    parseNatNum (natChars n ++ rest) = some (n, rest) := by
  by_cases hn : n = 0
  · subst hn
    have h0 : natChars 0 = ['0'] := by rw [natChars]; decide
    rw [h0]
    simp [parseNatNum]
  · rcases hd : natChars n with _ | ⟨c0, cs0⟩
    · exact absurd hd (natChars_ne_nil n)
    · have hne := natChars_head_ne_zero n (by omega) c0 cs0 hd
      have hdig : c0.isDigit = true := natChars_all_digits n c0 (by rw [hd]; simp)
      simp only [List.cons_append, parseNatNum]
      rw [if_neg hne, if_pos hdig]
      have h2 := readDigits_run cs0 (fun d hdm => natChars_all_digits n d (by rw [hd]; simp [hdm]))
        rest hrest (digitVal c0)
      rw [h2]
      have h3 := foldDigits_natChars n 0
      rw [hd] at h3
      simp only [foldDigits, List.foldl_cons] at h3
      simp only [foldDigits]
      rw [show (0 : Nat) * 10 + digitVal c0 = digitVal c0 by omega] at h3
      simp [h3]

theorem isDigit_ne_dash {c : Char} (h : c.isDigit = true) : ¬(c = '-') := by
  intro hc
  subst hc
  exact absurd h (by decide)

theorem parseNum_print (n : Int) (rest : List Char) (hrest : noDigitHead rest) :
    parseNum (intChars n ++ rest) = some (JsValue.num n, rest) := by
  unfold intChars
  split
  · rename_i hneg
    simp only [List.cons_append, parseNum]
    rw [if_pos trivial]
    rw [parseNatNum_print n.natAbs rest hrest]
    have he : -((n.natAbs : Int)) = n := by omega
    show some (JsValue.num (-((n.natAbs : Int))), rest) = some (JsValue.num n, rest)
    rw [he]
  · rename_i hneg
    rcases hd : natChars n.natAbs with _ | ⟨c0, cs0⟩
    · exact absurd hd (natChars_ne_nil _)
    · have hdig : c0.isDigit = true := natChars_all_digits _ c0 (by rw [hd]; simp)
      simp only [List.cons_append, parseNum]
      rw [if_neg (isDigit_ne_dash hdig)]
      rw [show c0 :: (cs0 ++ rest) = (c0 :: cs0) ++ rest by simp, ← hd]
      rw [parseNatNum_print n.natAbs rest hrest]
      have he : ((n.natAbs : Int)) = n := by omega
      show some (JsValue.num ((n.natAbs : Int)), rest) = some (JsValue.num n, rest)
      rw [he]

theorem hexVal_digitChar {k : Nat} (h : k < 16) : hexVal (Nat.digitChar k) = some k := by
  interval_cases k <;> decide

theorem parseStringBody_print (s : List Char) :
    ∀ (rest : List Char), parseStringBody (escChars s ++ ('"' :: rest)) = some (s, rest) := by
  induction s with
  | nil =>
    intro rest
    show parseStringBody ([] ++ ('"' :: rest)) = _
    rw [List.nil_append, parseStringBody.eq_def]
    simp
  | cons c cs ih =>
    intro rest
    show parseStringBody ((escChar c ++ escChars cs) ++ ('"' :: rest)) = _
    rw [List.append_assoc]
    by_cases h1 : c = '"'
    · subst h1
      simp only [escChar, if_pos rfl, List.cons_append, List.nil_append]
      rw [parseStringBody.eq_def]
      simp [escCode, ih rest]
    · by_cases h2 : c = '\\'
      · subst h2
        simp only [escChar, if_pos rfl, if_neg h1, List.cons_append, List.nil_append]
        rw [parseStringBody.eq_def]
        simp [escCode, ih rest]
      · by_cases h3 : c = Char.ofNat 8
        · subst h3
          simp only [escChar, if_neg h1, if_neg h2, if_pos rfl, List.cons_append, List.nil_append]
          rw [parseStringBody.eq_def]
          simp [escCode, ih rest]
        · by_cases h4 : c = Char.ofNat 9
          · subst h4
            simp only [escChar, if_neg h1, if_neg h2, if_neg h3, if_pos rfl, List.cons_append,
              List.nil_append]
            rw [parseStringBody.eq_def]
            simp [escCode, ih rest]
          · by_cases h5 : c = Char.ofNat 10
            · subst h5
              simp only [escChar, if_neg h1, if_neg h2, if_neg h3, if_neg h4, if_pos rfl,
                List.cons_append, List.nil_append]
              rw [parseStringBody.eq_def]
              simp [escCode, ih rest]
            · by_cases h6 : c = Char.ofNat 12
              · subst h6
                simp only [escChar, if_neg h1, if_neg h2, if_neg h3, if_neg h4, if_neg h5,
                  if_pos rfl, List.cons_append, List.nil_append]
                rw [parseStringBody.eq_def]
                simp [escCode, ih rest]
              · by_cases h7 : c = Char.ofNat 13
                · subst h7
                  simp only [escChar, if_neg h1, if_neg h2, if_neg h3, if_neg h4, if_neg h5,
                    if_neg h6, if_pos rfl, List.cons_append, List.nil_append]
                  rw [parseStringBody.eq_def]
                  simp [escCode, ih rest]
                · by_cases h8 : c.toNat < 32
                  · simp only [escChar, if_neg h1, if_neg h2, if_neg h3, if_neg h4, if_neg h5,
                      if_neg h6, if_neg h7, if_pos h8, List.cons_append, List.nil_append]
                    rw [parseStringBody.eq_def]
                    have hvh : hexVal (Nat.digitChar (c.toNat / 16)) = some (c.toNat / 16) :=
                      hexVal_digitChar (by omega)
                    have hvl : hexVal (Nat.digitChar (c.toNat % 16)) = some (c.toNat % 16) :=
                      hexVal_digitChar (by omega)
                    simp only [show hexVal '0' = some 0 by decide, hvh, hvl]
                    simp only [show ((0 : Nat) * 16 + 0) = 0 by omega, Nat.zero_mul, Nat.zero_add]
                    have hn : (c.toNat / 16) * 16 + c.toNat % 16 = c.toNat := by omega
                    simp only [hn]
                    have hrange : c.toNat < 55296 ∨ 57344 ≤ c.toNat := Or.inl (by omega)
                    simp only [ih rest]
                    simp [hrange, Char.ofNat_toNat, if_pos]
                  · simp only [escChar, if_neg h1, if_neg h2, if_neg h3, if_neg h4, if_neg h5,
                      if_neg h6, if_neg h7, if_neg h8, List.cons_append, List.nil_append]
                    rw [parseStringBody.eq_def]
                    simp [h1, h2, h8, ih rest]

mutual

/-- Fuel sufficient for parseVal on the printed form of a value. -/
def jfuel : JsValue → Nat
  | JsValue.arr vs => 1 + jfuelElems vs
  | JsValue.obj ms => 1 + jfuelMembs ms
  | _ => 1

/-- Fuel sufficient for parseArrTail on the printed remaining elements. -/
def jfuelElems : List JsValue → Nat
  | [] => 1
  | v :: vs => 1 + jfuel v + jfuelElems vs

/-- Fuel sufficient for parseObjTail on the printed remaining members. -/
def jfuelMembs : List (String × JsValue) → Nat
  | [] => 1
  | m :: ms => 2 + jfuel m.2 + jfuelMembs ms

end

theorem skipWs_not_ws {c : Char} (h : isWsChar c = false) (cs : List Char) :
    skipWs (c :: cs) = c :: cs := by
  simp [skipWs, h]

theorem isDigit_ne {c d : Char} (h : c.isDigit = true) (hd : d.isDigit = false) : ¬(c = d) := by
  intro he
  subst he
  rw [h] at hd
  simp at hd

theorem isDigit_not_ws {c : Char} (h : c.isDigit = true) : isWsChar c = false := by
  simp only [isWsChar, Bool.or_eq_false_iff, decide_eq_false_iff_not]
  refine ⟨⟨⟨?_, ?_⟩, ?_⟩, ?_⟩ <;> intro he <;> subst he <;> exact absurd h (by decide)

theorem printVal_head (v : JsValue) :
    ∃ d ds, printVal v = d :: ds ∧ isWsChar d = false ∧ ¬(d = ']') ∧ ¬(d = '\x7d') ∧
      ¬(d = ',') := by
  cases v with
  | null => exact ⟨'n', _, rfl, by decide, by decide, by decide, by decide⟩
  | bool b =>
    cases b with
    | true => exact ⟨'t', _, rfl, by decide, by decide, by decide, by decide⟩
    | false => exact ⟨'f', _, rfl, by decide, by decide, by decide, by decide⟩
  | num n =>
    by_cases hneg : n < 0
    · refine ⟨'-', natChars n.natAbs, ?_, by decide, by decide, by decide, by decide⟩
      simp [printVal, intChars, hneg]
    · rcases hd : natChars n.natAbs with _ | ⟨c0, cs0⟩
      · exact absurd hd (natChars_ne_nil _)
      · have hdig : c0.isDigit = true := natChars_all_digits _ c0 (by rw [hd]; simp)
        refine ⟨c0, cs0, ?_, isDigit_not_ws hdig, isDigit_ne hdig (by decide),
          isDigit_ne hdig (by decide), isDigit_ne hdig (by decide)⟩
        simp [printVal, intChars, hneg, hd]
  | str s => exact ⟨'"', _, rfl, by decide, by decide, by decide, by decide⟩
  | arr vs =>
    cases vs with
    | nil => exact ⟨'[', _, rfl, by decide, by decide, by decide, by decide⟩
    | cons v vs => exact ⟨'[', _, rfl, by decide, by decide, by decide, by decide⟩
  | obj ms =>
    cases ms with
    | nil => exact ⟨'\x7b', _, rfl, by decide, by decide, by decide, by decide⟩
    | cons m ms => exact ⟨'\x7b', _, rfl, by decide, by decide, by decide, by decide⟩

theorem noDigitHead_arrTail (vs : List JsValue) (rest : List Char) :
    noDigitHead (printTail vs ++ (']' :: rest)) := by
  cases vs with
  | nil => simp [printTail, noDigitHead]
  | cons v vs => simp [printTail, noDigitHead]

theorem noDigitHead_objTail (ms : List (String × JsValue)) (rest : List Char) :
    noDigitHead (printMembTail ms ++ ('\x7d' :: rest)) := by
  cases ms with
  | nil => simp [printMembTail, noDigitHead]
  | cons m ms => simp [printMembTail, noDigitHead]

theorem jfuel_pos (v : JsValue) : 1 ≤ jfuel v := by
  cases v <;> simp [jfuel]

mutual

theorem roundVal (v : JsValue) : ∀ (fuel : Nat), jfuel v ≤ fuel →
    ∀ (rest : List Char), noDigitHead rest →
      parseVal fuel (printVal v ++ rest) = some (v, rest) := by
  intro fuel hf rest hb
  obtain ⟨f, rfl⟩ : ∃ f, fuel = f + 1 := ⟨fuel - 1, by have := jfuel_pos v; omega⟩
  cases v with
  | null => simp [printVal, parseVal, skipWs, isWsChar]
  | bool b => cases b <;> simp [printVal, parseVal, skipWs, isWsChar]
  | num n =>
    by_cases hneg : n < 0
    · have hpv : printVal (JsValue.num n) = '-' :: natChars n.natAbs := by
        simp [printVal, intChars, hneg]
      rw [hpv]
      rw [parseVal.eq_def]
      simp only [List.cons_append, skipWs_not_ws (by decide : isWsChar '-' = false)]
      simp only [show ¬(('-' : Char) = 'n') by decide, show ¬(('-' : Char) = 't') by decide,
        show ¬(('-' : Char) = 'f') by decide, show ¬(('-' : Char) = '"') by decide,
        show ¬(('-' : Char) = '[') by decide, show ¬(('-' : Char) = '\x7b') by decide,
        if_neg, if_false]
      rw [show ('-' :: (natChars n.natAbs ++ rest)) = (('-' :: natChars n.natAbs) ++ rest) by simp]
      rw [← hpv]
      have := parseNum_print n rest hb
      rw [show printVal (JsValue.num n) = intChars n by simp [printVal]]
      exact this
    · have hpv : printVal (JsValue.num n) = natChars n.natAbs := by
        simp [printVal, intChars, hneg]
      rcases hd : natChars n.natAbs with _ | ⟨c0, cs0⟩
      · exact absurd hd (natChars_ne_nil _)
      · have hdig : c0.isDigit = true := natChars_all_digits _ c0 (by rw [hd]; simp)
        rw [hpv, hd]
        rw [parseVal.eq_def]
        simp only [List.cons_append, skipWs_not_ws (isDigit_not_ws hdig)]
        simp only [if_neg (isDigit_ne hdig (by decide : ('n' : Char).isDigit = false)),
          if_neg (isDigit_ne hdig (by decide : ('t' : Char).isDigit = false)),
          if_neg (isDigit_ne hdig (by decide : ('f' : Char).isDigit = false)),
          if_neg (isDigit_ne hdig (by decide : ('"' : Char).isDigit = false)),
          if_neg (isDigit_ne hdig (by decide : ('[' : Char).isDigit = false)),
          if_neg (isDigit_ne hdig (by decide : ('\x7b' : Char).isDigit = false))]
        rw [show (c0 :: (cs0 ++ rest)) = ((c0 :: cs0) ++ rest) by simp]
        rw [← hd]
        have hpn := parseNum_print n rest hb
        have hip : intChars n = natChars n.natAbs := by simp [intChars, hneg]
        rw [hip] at hpn
        exact hpn
  | str s =>
    have hpv : printVal (JsValue.str s) = '"' :: (escChars s.data ++ ['"']) := by
      simp [printVal, printStr]
    rw [hpv]
    rw [parseVal.eq_def]
    simp only [List.cons_append, skipWs_not_ws (by decide : isWsChar '"' = false)]
    simp only [show ¬(('"' : Char) = 'n') by decide, show ¬(('"' : Char) = 't') by decide,
      show ¬(('"' : Char) = 'f') by decide, if_neg, if_false, if_pos rfl]
    rw [show ((escChars s.data ++ ['"']) ++ rest) = (escChars s.data ++ ('"' :: rest))
      by simp]
    rw [parseStringBody_print s.data rest]
    rw [if_pos trivial]
  | arr vs =>
    cases vs with
    | nil => simp [printVal, parseVal, skipWs, isWsChar]
    | cons v vs =>
      have hfv : jfuel v ≤ f := by simp [jfuel, jfuelElems] at hf; omega
      have hfvs : jfuelElems vs ≤ f := by simp [jfuel, jfuelElems] at hf; omega
      have hpv : printVal (JsValue.arr (v :: vs)) =
          '[' :: ((printVal v ++ printTail vs) ++ [']']) := by simp [printVal]
      rw [hpv]
      rw [parseVal.eq_def]
      simp only [List.cons_append, skipWs_not_ws (by decide : isWsChar '[' = false)]
      simp only [show ¬(('[' : Char) = 'n') by decide, show ¬(('[' : Char) = 't') by decide,
        show ¬(('[' : Char) = 'f') by decide, show ¬(('[' : Char) = '"') by decide,
        if_neg, if_false, if_pos rfl]
      obtain ⟨d, ds, hdv, hdw, hdrb, hdob, hdc⟩ := printVal_head v
      rw [show (((printVal v ++ printTail vs) ++ [']']) ++ rest) =
        (printVal v ++ (printTail vs ++ (']' :: rest))) by simp]
      rw [hdv, List.cons_append, skipWs_not_ws hdw]
      simp only [if_neg hdrb]
      rw [← List.cons_append, ← hdv]
      simp only [roundVal v f hfv (printTail vs ++ (']' :: rest)) (noDigitHead_arrTail vs rest),
        roundArrTail vs f hfvs rest hb]
      rw [if_pos trivial]
  | obj ms =>
    cases ms with
    | nil => simp [printVal, parseVal, skipWs, isWsChar]
    | cons m ms =>
      have hfm : 1 + jfuel m.2 ≤ f := by simp [jfuel, jfuelMembs] at hf; omega
      have hfms : jfuelMembs ms ≤ f := by simp [jfuel, jfuelMembs] at hf; omega
      have hpv : printVal (JsValue.obj (m :: ms)) =
          '\x7b' :: ((printMemb m ++ printMembTail ms) ++ ['\x7d']) := by simp [printVal]
      rw [hpv]
      rw [parseVal.eq_def]
      simp only [List.cons_append, skipWs_not_ws (by decide : isWsChar '\x7b' = false)]
      simp only [show ¬(('\x7b' : Char) = 'n') by decide, show ¬(('\x7b' : Char) = 't') by decide,
        show ¬(('\x7b' : Char) = 'f') by decide, show ¬(('\x7b' : Char) = '"') by decide,
        show ¬(('\x7b' : Char) = '[') by decide, if_neg, if_false, if_pos rfl]
      rw [show (((printMemb m ++ printMembTail ms) ++ ['\x7d']) ++ rest) =
        (printMemb m ++ (printMembTail ms ++ ('\x7d' :: rest))) by simp]
      have hmh : ∃ ds, printMemb m = '"' :: ds := by
        rcases m with ⟨k, w⟩
        exact ⟨_, rfl⟩
      obtain ⟨ds, hds⟩ := hmh
      rw [hds, List.cons_append, skipWs_not_ws (by decide : isWsChar '"' = false)]
      simp only [show ¬(('"' : Char) = '\x7d') by decide, if_neg, if_false]
      rw [← List.cons_append, ← hds]
      simp only [roundMemb m f hfm (printMembTail ms ++ ('\x7d' :: rest))
          (noDigitHead_objTail ms rest),
        roundObjTail ms f hfms rest hb]
      rw [if_pos trivial]

theorem roundMemb (m : String × JsValue) : ∀ (fuel : Nat), 1 + jfuel m.2 ≤ fuel →
    ∀ (rest : List Char), noDigitHead rest →
      parseMemb fuel (printMemb m ++ rest) = some (m, rest) := by
  intro fuel hf rest hb
  obtain ⟨f, rfl⟩ : ∃ f, fuel = f + 1 := ⟨fuel - 1, by omega⟩
  rcases m with ⟨k, v⟩
  have hfv : jfuel v ≤ f := by simp at hf; omega
  have hpm : printMemb (k, v) = '"' :: ((escChars k.data ++ ['"']) ++ (':' :: printVal v)) := by
    simp [printMemb, printStr]
  rw [hpm]
  rw [parseMemb.eq_def]
  simp only [List.cons_append, skipWs_not_ws (by decide : isWsChar '"' = false)]
  rw [show (((escChars k.data ++ ['"']) ++ (':' :: printVal v)) ++ rest) =
    (escChars k.data ++ ('"' :: (':' :: (printVal v ++ rest)))) by simp]
  rw [parseStringBody_print k.data]
  rw [if_pos trivial]
  simp only [skipWs_not_ws (by decide : isWsChar ':' = false)]
  simp only [roundVal v f hfv rest hb]
  rw [if_pos trivial]

theorem roundArrTail (vs : List JsValue) : ∀ (fuel : Nat), jfuelElems vs ≤ fuel →
    ∀ (rest : List Char), noDigitHead rest →
      parseArrTail fuel (printTail vs ++ (']' :: rest)) = some (vs, rest) := by
  intro fuel hf rest hb
  obtain ⟨f, rfl⟩ : ∃ f, fuel = f + 1 := ⟨fuel - 1, by cases vs <;> simp [jfuelElems] at hf <;> omega⟩
  cases vs with
  | nil => simp [printTail, parseArrTail, skipWs, isWsChar]
  | cons v vs =>
    have hfv : jfuel v ≤ f := by simp [jfuelElems] at hf; omega
    have hfvs : jfuelElems vs ≤ f := by simp [jfuelElems] at hf; omega
    rw [show (printTail (v :: vs) ++ (']' :: rest)) =
      (',' :: (printVal v ++ (printTail vs ++ (']' :: rest)))) by simp [printTail]]
    rw [parseArrTail.eq_def]
    simp only [skipWs_not_ws (by decide : isWsChar ',' = false)]
    simp only [show ¬((',' : Char) = ']') by decide, if_neg, if_false, if_pos rfl]
    simp only [roundVal v f hfv (printTail vs ++ (']' :: rest)) (noDigitHead_arrTail vs rest),
      roundArrTail vs f hfvs rest hb]
    rw [if_pos trivial]

theorem roundObjTail (ms : List (String × JsValue)) : ∀ (fuel : Nat), jfuelMembs ms ≤ fuel →
    ∀ (rest : List Char), noDigitHead rest →
      parseObjTail fuel (printMembTail ms ++ ('\x7d' :: rest)) = some (ms, rest) := by
  intro fuel hf rest hb
  obtain ⟨f, rfl⟩ : ∃ f, fuel = f + 1 := ⟨fuel - 1, by cases ms <;> simp [jfuelMembs] at hf <;> omega⟩
  cases ms with
  | nil => simp [printMembTail, parseObjTail, skipWs, isWsChar]
  | cons m ms =>
    have hfm : 1 + jfuel m.2 ≤ f := by simp [jfuelMembs] at hf; omega
    have hfms : jfuelMembs ms ≤ f := by simp [jfuelMembs] at hf; omega
    rw [show (printMembTail (m :: ms) ++ ('\x7d' :: rest)) =
      (',' :: (printMemb m ++ (printMembTail ms ++ ('\x7d' :: rest)))) by simp [printMembTail]]
    rw [parseObjTail.eq_def]
    simp only [skipWs_not_ws (by decide : isWsChar ',' = false)]
    simp only [show ¬((',' : Char) = '\x7d') by decide, if_neg, if_false, if_pos rfl]
    simp only [roundMemb m f hfm (printMembTail ms ++ ('\x7d' :: rest))
        (noDigitHead_objTail ms rest),
      roundObjTail ms f hfms rest hb]
    rw [if_pos trivial]

end

theorem printStr_len_ge (k : String) : 2 ≤ (printStr k).length := by
  simp [printStr]

mutual

theorem jfuel_le_len (v : JsValue) : jfuel v ≤ 2 * (printVal v).length := by
  cases v with
  | null => simp [jfuel, printVal]
  | bool b => cases b <;> simp [jfuel, printVal]
  | num n =>
    have : 1 ≤ (printVal (JsValue.num n)).length := by
      obtain ⟨d, ds, hd, _⟩ := printVal_head (JsValue.num n)
      simp [hd]
    simp only [jfuel]
    omega
  | str s =>
    have : 1 ≤ (printVal (JsValue.str s)).length := by
      obtain ⟨d, ds, hd, _⟩ := printVal_head (JsValue.str s)
      simp [hd]
    simp only [jfuel]
    omega
  | arr vs =>
    cases vs with
    | nil => simp [jfuel, jfuelElems, printVal]
    | cons v vs =>
      have h1 := jfuel_le_len v
      have h2 := jfuelElems_le_len vs
      simp only [jfuel, jfuelElems, printVal, List.length_cons, List.length_append]
      simp
      omega
  | obj ms =>
    cases ms with
    | nil => simp [jfuel, jfuelMembs, printVal]
    | cons m ms =>
      have h1 := jfuel_le_len m.2
      have h2 := jfuelMembs_le_len ms
      have h3 := printStr_len_ge m.1
      have h4 : (printMemb m).length = (printStr m.1).length + 1 + (printVal m.2).length := by
        rcases m with ⟨k, w⟩
        simp [printMemb]
        omega
      simp only [jfuel, jfuelMembs, printVal, List.length_cons, List.length_append]
      simp
      omega

theorem jfuelElems_le_len (vs : List JsValue) :
    jfuelElems vs ≤ 2 * (printTail vs).length + 2 := by
  cases vs with
  | nil => simp [jfuelElems, printTail]
  | cons v vs =>
    have h1 := jfuel_le_len v
    have h2 := jfuelElems_le_len vs
    simp only [jfuelElems, printTail, List.length_cons, List.length_append]
    omega

theorem jfuelMembs_le_len (ms : List (String × JsValue)) :
    jfuelMembs ms ≤ 2 * (printMembTail ms).length + 2 := by
  cases ms with
  | nil => simp [jfuelMembs, printMembTail]
  | cons m ms =>
    have h1 := jfuel_le_len m.2
    have h2 := jfuelMembs_le_len ms
    have h3 := printStr_len_ge m.1
    have h4 : (printMemb m).length = (printStr m.1).length + 1 + (printVal m.2).length := by
      rcases m with ⟨k, w⟩
      simp [printMemb]
      omega
    simp only [jfuelMembs, printMembTail, List.length_cons, List.length_append]
    omega

end

/-- Round trip: JSON.parse recovers exactly what JSON.stringify wrote. -/
theorem deserialize_stringify (v : JsValue) : deserialize (stringify v) = some v := by
  unfold deserialize stringify
  have hlen : jfuel v ≤ 2 * (String.mk (printVal v)).length + 2 := by
    have h1 := jfuel_le_len v
    have h2 : (String.mk (printVal v)).length = (printVal v).length := rfl
    omega
  have h := roundVal v (2 * (String.mk (printVal v)).length + 2) hlen [] trivial
  rw [List.append_nil] at h
  rw [show (String.mk (printVal v)).data = printVal v from rfl]
  rw [h]
  simp [skipWs]

/-- JSON.stringify never returns the empty string. -/
theorem stringify_ne_empty (v : JsValue) : ¬(stringify v = ("")) := by
  obtain ⟨d, ds, hd, _⟩ := printVal_head v
  unfold stringify
  intro he
  have : printVal v = ([] : List Char) := congrArg String.data he
  rw [hd] at this
  cases this

theorem findEntry_setEntry_self (k v : String) (exp : Option Nat) (st : RedisState) :
    findEntry k (setEntry k v exp st).store = some (Entry.mk v exp) := by
  simp [setEntry, findEntry]

theorem findEntry_eraseKey_ne {k2 k : String} (h : ¬(k2 = k)) (l : List (String × Entry)) :
    findEntry k2 (eraseKey k l) = findEntry k2 l := by
  induction l with
  | nil => rfl
  | cons p rest ih =>
    by_cases hp : p.1 = k
    · have hne : ¬(p.1 = k2) := by rw [hp]; exact fun he => h he.symm
      rw [show eraseKey k (p :: rest) = eraseKey k rest by simp [eraseKey, hp]]
      rw [ih]
      simp [findEntry, hne]
    · rw [show eraseKey k (p :: rest) = p :: eraseKey k rest by simp [eraseKey, hp]]
      simp only [findEntry]
      by_cases hp2 : p.1 = k2
      · simp [hp2]
      · simp [hp2, ih]

theorem findEntry_setEntry_ne {k2 k : String} (h : ¬(k2 = k)) (v : String)
    (exp : Option Nat) (st : RedisState) :
    findEntry k2 (setEntry k v exp st).store = findEntry k2 st.store := by
  have hne : ¬(k = k2) := fun he => h he.symm
  simp only [setEntry, findEntry, hne, if_neg, if_false]
  exact findEntry_eraseKey_ne h st.store

theorem findEntry_filter_mem {k : String} {ks : List String} (h : k ∈ ks)
    (l : List (String × Entry)) :
    findEntry k (l.filter (fun p => !(ks.contains p.1))) = none := by
  induction l with
  | nil => rfl
  | cons p rest ih =>
    by_cases hp : p.1 ∈ ks
    · rw [show List.filter (fun p => !(ks.contains p.1)) (p :: rest) =
          List.filter (fun p => !(ks.contains p.1)) rest by simp [List.filter_cons, hp]]
      exact ih
    · have hne : ¬(p.1 = k) := fun he => hp (he ▸ h)
      rw [show List.filter (fun p => !(ks.contains p.1)) (p :: rest) =
          p :: List.filter (fun p => !(ks.contains p.1)) rest by simp [List.filter_cons, hp]]
      simp [findEntry, hne]
      simpa using ih

theorem findEntry_filter_not_mem {k : String} {ks : List String} (h : ¬(k ∈ ks))
    (l : List (String × Entry)) :
    findEntry k (l.filter (fun p => !(ks.contains p.1))) = findEntry k l := by
  induction l with
  | nil => rfl
  | cons p rest ih =>
    by_cases hp : p.1 ∈ ks
    · have hne : ¬(p.1 = k) := fun he => h (he ▸ hp)
      rw [show List.filter (fun p => !(ks.contains p.1)) (p :: rest) =
          List.filter (fun p => !(ks.contains p.1)) rest by simp [List.filter_cons, hp]]
      rw [show findEntry k (p :: rest) = findEntry k rest by simp [findEntry, hne]]
      simpa using ih
    · rw [show List.filter (fun p => !(ks.contains p.1)) (p :: rest) =
          p :: List.filter (fun p => !(ks.contains p.1)) rest by simp [List.filter_cons, hp]]
      by_cases hp2 : p.1 = k
      · simp [findEntry, hp2]
      · simp [findEntry, hp2]
        simpa using ih

theorem findEntry_delKeys_mem {k : String} {ks : List String} (h : k ∈ ks)
    (st : RedisState) :
    findEntry k (delKeys ks st).store = none := by
  simp only [delKeys]
  exact findEntry_filter_mem h st.store

theorem findEntry_delKeys_not_mem {k : String} {ks : List String} (h : ¬(k ∈ ks))
    (st : RedisState) :
    findEntry k (delKeys ks st).store = findEntry k st.store := by
  simp only [delKeys]
  exact findEntry_filter_not_mem h st.store

theorem afterConnect_idem (cf : Bool) (st : RedisState) :
    afterConnect cf (afterConnect cf st) = afterConnect cf st := by
  unfold afterConnect
  cases hc : st.isConnected <;> cases ho : st.isOpen <;> cases cf <;> simp [hc, ho]

/-- Claim C2 counterexample: on a fresh disconnected client whose connect
attempt fails, ensureConnection still returns true, and afterwards the
client is still not open — where the claim requires the return value
false.  (redis.ts connectRedis catches the failure internally, so the
catch branch of ensureConnection that would return false is dead code.) -/
theorem claim2_counterexample :
    (ensureConnection true (RedisState.mk false false [] 0)).1 = Except.ok true ∧
    ((ensureConnection true (RedisState.mk false false [] 0)).2).isOpen = false := by
  constructor <;> rfl

/-- Claim C2 (amended): ensureConnection is idempotent and never throws
past its boundary, but it returns true unconditionally — also when the
connection attempt fails — because connectRedis absorbs connect failures
internally; such failures surface only as failures of later store calls,
each absorbed by the per-operation catch blocks. -/
theorem claim2_theorem (cf : Bool) (st : RedisState) :
    ensureConnection cf st = (Except.ok true, afterConnect cf st) ∧
    ensureConnection cf ((ensureConnection cf st).2) =
      (Except.ok true, (ensureConnection cf st).2) := by
  refine ⟨ensureConnection_run cf st, ?_⟩
  rw [ensureConnection_run, ensureConnection_run, afterConnect_idem]

/-- A state whose client is closed and whose module flag is down: with a
failing connect attempt this is the unreachable-store world. -/
def downState (store : List (String × Entry)) (now : Nat) : RedisState :=
  RedisState.mk false false store now

/-- A state whose client is open: the reachable-store world. -/
def upState (ic : Bool) (store : List (String × Entry)) (now : Nat) : RedisState :=
  RedisState.mk true ic store now

/-- Claim C1: no cache-layer operation raises an error past its boundary,
whatever the store does.  Part one: for every fault pattern and every
state, every operation settles with an ok result.  Part two: with the
backing store unreachable, each get returns null, each set, invalidate
and revoke returns leaving the store untouched, validateSession returns
true, checkRateLimit returns allowed with the full allowance remaining,
and getCacheStats reports disconnected.  Part three: the same degraded
results when the store is reachable but the operation's own store call
fails. -/
theorem claim1_theorem :
    (∀ (cf gf : Bool) (u : String) (st : RedisState),
      isOkE ((getCachedUser cf gf u) st).1 = true) ∧
    (∀ (cf gf : Bool) (u : String) (st : RedisState),
      isOkE ((getCachedTasks cf gf u) st).1 = true) ∧
    (∀ (cf gf : Bool) (t : String) (st : RedisState),
      isOkE ((getCachedTask cf gf t) st).1 = true) ∧
    (∀ (cf sf : Bool) (u : String) (v : JsValue) (st : RedisState),
      isOkE ((setCachedUser cf sf u v) st).1 = true) ∧
    (∀ (cf sf : Bool) (u : String) (vs : List JsValue) (st : RedisState),
      isOkE ((setCachedTasks cf sf u vs) st).1 = true) ∧
    (∀ (cf sf : Bool) (t : String) (v : JsValue) (st : RedisState),
      isOkE ((setCachedTask cf sf t v) st).1 = true) ∧
    (∀ (cf df : Bool) (u : String) (st : RedisState),
      isOkE ((invalidateUserCache cf df u) st).1 = true) ∧
    (∀ (cf df : Bool) (u : String) (st : RedisState),
      isOkE ((invalidateTasksCache cf df u) st).1 = true) ∧
    (∀ (cf d1 d2 : Bool) (t u : String) (st : RedisState),
      isOkE ((invalidateTaskCache cf d1 d2 t u) st).1 = true) ∧
    (∀ (cf sf : Bool) (u t tok : String) (st : RedisState),
      isOkE ((storeSession cf sf u t tok) st).1 = true) ∧
    (∀ (cf ef : Bool) (u t : String) (st : RedisState),
      isOkE ((validateSession cf ef u t) st).1 = true) ∧
    (∀ (cf df : Bool) (u t : String) (st : RedisState),
      isOkE ((revokeSession cf df u t) st).1 = true) ∧
    (∀ (cf kf df : Bool) (u : String) (st : RedisState),
      isOkE ((revokeAllUserSessions cf kf df u) st).1 = true) ∧
    (∀ (cf icf exf : Bool) (u ep : String) (m : Int) (st : RedisState),
      isOkE ((checkRateLimit cf icf exf u ep m) st).1 = true) ∧
    (∀ (cf nf bf : Bool) (st : RedisState),
      isOkE ((getCacheStats cf nf bf) st).1 = true) ∧
    (∀ (gf : Bool) (u : String) (store : List (String × Entry)) (now : Nat),
      getCachedUser true gf u (downState store now) =
        (Except.ok JsValue.null, downState store now)) ∧
    (∀ (gf : Bool) (u : String) (store : List (String × Entry)) (now : Nat),
      getCachedTasks true gf u (downState store now) =
        (Except.ok JsValue.null, downState store now)) ∧
    (∀ (gf : Bool) (t : String) (store : List (String × Entry)) (now : Nat),
      getCachedTask true gf t (downState store now) =
        (Except.ok JsValue.null, downState store now)) ∧
    (∀ (sf : Bool) (u : String) (v : JsValue) (store : List (String × Entry)) (now : Nat),
      setCachedUser true sf u v (downState store now) =
        (Except.ok (), downState store now)) ∧
    (∀ (sf : Bool) (u : String) (vs : List JsValue) (store : List (String × Entry)) (now : Nat),
      setCachedTasks true sf u vs (downState store now) =
        (Except.ok (), downState store now)) ∧
    (∀ (sf : Bool) (t : String) (v : JsValue) (store : List (String × Entry)) (now : Nat),
      setCachedTask true sf t v (downState store now) =
        (Except.ok (), downState store now)) ∧
    (∀ (df : Bool) (u : String) (store : List (String × Entry)) (now : Nat),
      invalidateUserCache true df u (downState store now) =
        (Except.ok (), downState store now)) ∧
    (∀ (df : Bool) (u : String) (store : List (String × Entry)) (now : Nat),
      invalidateTasksCache true df u (downState store now) =
        (Except.ok (), downState store now)) ∧
    (∀ (d1 d2 : Bool) (t u : String) (store : List (String × Entry)) (now : Nat),
      invalidateTaskCache true d1 d2 t u (downState store now) =
        (Except.ok (), downState store now)) ∧
    (∀ (sf : Bool) (u t tok : String) (store : List (String × Entry)) (now : Nat),
      storeSession true sf u t tok (downState store now) =
        (Except.ok (), downState store now)) ∧
    (∀ (ef : Bool) (u t : String) (store : List (String × Entry)) (now : Nat),
      validateSession true ef u t (downState store now) =
        (Except.ok true, downState store now)) ∧
    (∀ (df : Bool) (u t : String) (store : List (String × Entry)) (now : Nat),
      revokeSession true df u t (downState store now) =
        (Except.ok (), downState store now)) ∧
    (∀ (kf df : Bool) (u : String) (store : List (String × Entry)) (now : Nat),
      revokeAllUserSessions true kf df u (downState store now) =
        (Except.ok (), downState store now)) ∧
    (∀ (icf exf : Bool) (u ep : String) (m : Int) (store : List (String × Entry)) (now : Nat),
      checkRateLimit true icf exf u ep m (downState store now) =
        (Except.ok (RateResult.mk true m), downState store now)) ∧
    (∀ (nf bf : Bool) (store : List (String × Entry)) (now : Nat),
      getCacheStats true nf bf (downState store now) =
        (Except.ok (CacheStats.mk false none none (some ("store failure"))),
         downState store now)) ∧
    (∀ (cf : Bool) (u : String) (ic : Bool) (store : List (String × Entry)) (now : Nat),
      getCachedUser cf true u (upState ic store now) =
        (Except.ok JsValue.null, upState ic store now)) ∧
    (∀ (cf : Bool) (u : String) (ic : Bool) (store : List (String × Entry)) (now : Nat),
      getCachedTasks cf true u (upState ic store now) =
        (Except.ok JsValue.null, upState ic store now)) ∧
    (∀ (cf : Bool) (t : String) (ic : Bool) (store : List (String × Entry)) (now : Nat),
      getCachedTask cf true t (upState ic store now) =
        (Except.ok JsValue.null, upState ic store now)) ∧
    (∀ (cf : Bool) (u : String) (v : JsValue) (ic : Bool) (store : List (String × Entry))
        (now : Nat),
      setCachedUser cf true u v (upState ic store now) =
        (Except.ok (), upState ic store now)) ∧
    (∀ (cf : Bool) (u : String) (vs : List JsValue) (ic : Bool) (store : List (String × Entry))
        (now : Nat),
      setCachedTasks cf true u vs (upState ic store now) =
        (Except.ok (), upState ic store now)) ∧
    (∀ (cf : Bool) (t : String) (v : JsValue) (ic : Bool) (store : List (String × Entry))
        (now : Nat),
      setCachedTask cf true t v (upState ic store now) =
        (Except.ok (), upState ic store now)) ∧
    (∀ (cf : Bool) (u : String) (ic : Bool) (store : List (String × Entry)) (now : Nat),
      invalidateUserCache cf true u (upState ic store now) =
        (Except.ok (), upState ic store now)) ∧
    (∀ (cf : Bool) (u : String) (ic : Bool) (store : List (String × Entry)) (now : Nat),
      invalidateTasksCache cf true u (upState ic store now) =
        (Except.ok (), upState ic store now)) ∧
    (∀ (cf : Bool) (t u : String) (ic : Bool) (store : List (String × Entry)) (now : Nat),
      invalidateTaskCache cf true true t u (upState ic store now) =
        (Except.ok (), upState ic store now)) ∧
    (∀ (cf : Bool) (u t tok : String) (ic : Bool) (store : List (String × Entry)) (now : Nat),
      storeSession cf true u t tok (upState ic store now) =
        (Except.ok (), upState ic store now)) ∧
    (∀ (cf : Bool) (u t : String) (ic : Bool) (store : List (String × Entry)) (now : Nat),
      validateSession cf true u t (upState ic store now) =
        (Except.ok true, upState ic store now)) ∧
    (∀ (cf : Bool) (u t : String) (ic : Bool) (store : List (String × Entry)) (now : Nat),
      revokeSession cf true u t (upState ic store now) =
        (Except.ok (), upState ic store now)) ∧
    (∀ (cf df : Bool) (u : String) (ic : Bool) (store : List (String × Entry)) (now : Nat),
      revokeAllUserSessions cf true df u (upState ic store now) =
        (Except.ok (), upState ic store now)) ∧
    (∀ (cf exf : Bool) (u ep : String) (m : Int) (ic : Bool) (store : List (String × Entry))
        (now : Nat),
      checkRateLimit cf true exf u ep m (upState ic store now) =
        (Except.ok (RateResult.mk true m), upState ic store now)) ∧
    (∀ (cf bf : Bool) (ic : Bool) (store : List (String × Entry)) (now : Nat),
      getCacheStats cf true bf (upState ic store now) =
        (Except.ok (CacheStats.mk false none none (some ("store failure"))),
         upState ic store now)) := by
  refine ⟨?_, ?_, ?_, ?_, ?_, ?_, ?_, ?_, ?_, ?_, ?_, ?_, ?_, ?_, ?_, ?_, ?_, ?_, ?_, ?_, ?_,
    ?_, ?_, ?_, ?_, ?_, ?_, ?_, ?_, ?_, ?_, ?_, ?_, ?_, ?_, ?_, ?_, ?_, ?_, ?_, ?_, ?_, ?_,
    ?_, ?_⟩
  · intro cf gf u st; unfold getCachedUser; exact tryCatchD_ok _ _ _
  · intro cf gf u st; unfold getCachedTasks; exact tryCatchD_ok _ _ _
  · intro cf gf t st; unfold getCachedTask; exact tryCatchD_ok _ _ _
  · intro cf sf u v st; unfold setCachedUser; exact tryCatchD_ok _ _ _
  · intro cf sf u vs st; unfold setCachedTasks; exact tryCatchD_ok _ _ _
  · intro cf sf t v st; unfold setCachedTask; exact tryCatchD_ok _ _ _
  · intro cf df u st; unfold invalidateUserCache; exact tryCatchD_ok _ _ _
  · intro cf df u st; unfold invalidateTasksCache; exact tryCatchD_ok _ _ _
  · intro cf d1 d2 t u st; unfold invalidateTaskCache; exact tryCatchD_ok _ _ _
  · intro cf sf u t tok st; unfold storeSession; exact tryCatchD_ok _ _ _
  · intro cf ef u t st; unfold validateSession; exact tryCatchD_ok _ _ _
  · intro cf df u t st; unfold revokeSession; exact tryCatchD_ok _ _ _
  · intro cf kf df u st; unfold revokeAllUserSessions; exact tryCatchD_ok _ _ _
  · intro cf icf exf u ep m st; unfold checkRateLimit; exact tryCatchD_ok _ _ _
  · intro cf nf bf st; unfold getCacheStats; exact tryCatchD_ok _ _ _
  · intro gf u store now; exact getCachedUser_down rfl gf u
  · intro gf u store now; exact getCachedTasks_down rfl gf u
  · intro gf t store now; exact getCachedTask_down rfl gf t
  · intro sf u v store now; exact setCachedUser_down rfl sf u v
  · intro sf u vs store now; exact setCachedTasks_down rfl sf u vs
  · intro sf t v store now; exact setCachedTask_down rfl sf t v
  · intro df u store now; exact invalidateUserCache_down rfl df u
  · intro df u store now; exact invalidateTasksCache_down rfl df u
  · intro d1 d2 t u store now; exact invalidateTaskCache_down rfl d1 d2 t u
  · intro sf u t tok store now; exact storeSession_down rfl sf u t tok
  · intro ef u t store now; exact validateSession_down rfl ef u t
  · intro df u t store now; exact revokeSession_down rfl df u t
  · intro kf df u store now; exact revokeAllUserSessions_down rfl kf df u
  · intro icf exf u ep m store now; exact checkRateLimit_down rfl icf exf u ep m
  · intro nf bf store now; exact getCacheStats_down rfl nf bf
  · intro cf u ic store now; exact getCachedUser_fault rfl cf u
  · intro cf u ic store now; exact getCachedTasks_fault rfl cf u
  · intro cf t ic store now; exact getCachedTask_fault rfl cf t
  · intro cf u v ic store now; exact setCachedUser_fault rfl cf u v
  · intro cf u vs ic store now; exact setCachedTasks_fault rfl cf u vs
  · intro cf t v ic store now; exact setCachedTask_fault rfl cf t v
  · intro cf u ic store now; exact invalidateUserCache_fault rfl cf u
  · intro cf u ic store now; exact invalidateTasksCache_fault rfl cf u
  · intro cf t u ic store now; exact invalidateTaskCache_fault rfl cf t u
  · intro cf u t tok ic store now; exact storeSession_fault rfl cf u t tok
  · intro cf u t ic store now; exact validateSession_fault rfl cf u t
  · intro cf u t ic store now; exact revokeSession_fault rfl cf u t
  · intro cf df u ic store now; exact revokeAllUserSessions_keysfault rfl cf df u
  · intro cf exf u ep m ic store now; exact checkRateLimit_fault rfl cf exf u ep m
  · intro cf bf ic store now; exact getCacheStats_fault rfl cf bf

theorem liveValue_of_findEntry_none {st : RedisState} {k : String}
    (h : findEntry k st.store = none) : liveValue st k = none := by
  unfold liveValue
  rw [h]

theorem getResult_setEntry (st : RedisState) (k : String) (v : JsValue) (ttl : Nat)
    (htl : 0 < ttl) :
    getResult (setEntry k (stringify v) (some (st.now + ttl)) st) k = v := by
  unfold getResult liveValue
  rw [findEntry_setEntry_self]
  simp only [show entryLive (setEntry k (stringify v) (some (st.now + ttl)) st).now
      (Entry.mk (stringify v) (some (st.now + ttl))) = true by
    simp [entryLive, setEntry]; omega, if_true, if_pos]
  rw [show (if stringify v = ("") then JsValue.null
      else (deserialize (stringify v)).getD JsValue.null) = v by
    rw [if_neg (stringify_ne_empty v), deserialize_stringify]
    rfl]

theorem getResult_none {st : RedisState} {k : String} (h : findEntry k st.store = none) :
    getResult st k = JsValue.null := by
  unfold getResult
  rw [liveValue_of_findEntry_none h]

/-- Claim C4: for each entity type, a set followed immediately by a get
with the store reachable returns exactly the value that was set (the task
list is cached as a JSON array of its elements). -/
theorem claim4_theorem :
    (∀ (ic : Bool) (store : List (String × Entry)) (now : Nat) (u : String) (v : JsValue),
      getCachedUser false false u ((setCachedUser false false u v (upState ic store now)).2) =
        (Except.ok v, (setCachedUser false false u v (upState ic store now)).2)) ∧
    (∀ (ic : Bool) (store : List (String × Entry)) (now : Nat) (u : String)
        (vs : List JsValue),
      getCachedTasks false false u
          ((setCachedTasks false false u vs (upState ic store now)).2) =
        (Except.ok (JsValue.arr vs),
         (setCachedTasks false false u vs (upState ic store now)).2)) ∧
    (∀ (ic : Bool) (store : List (String × Entry)) (now : Nat) (t : String) (v : JsValue),
      getCachedTask false false t ((setCachedTask false false t v (upState ic store now)).2) =
        (Except.ok v, (setCachedTask false false t v (upState ic store now)).2)) := by
  refine ⟨?_, ?_, ?_⟩
  · intro ic store now u v
    rw [setCachedUser_open rfl]
    rw [getCachedUser_open rfl]
    rw [getResult_setEntry (upState ic store now) (("user:") ++ u) v ttlUSER
      (by norm_num [ttlUSER])]
  · intro ic store now u vs
    rw [setCachedTasks_open rfl]
    rw [getCachedTasks_open rfl]
    rw [getResult_setEntry (upState ic store now) (("tasks:") ++ u) (JsValue.arr vs) ttlTASKS
      (by norm_num [ttlTASKS])]
  · intro ic store now t v
    rw [setCachedTask_open rfl]
    rw [getCachedTask_open rfl]
    rw [getResult_setEntry (upState ic store now) (("task:") ++ t) v ttlTASK
      (by norm_num [ttlTASK])]

/-- Claim C5: invalidateTaskCache with the store reachable deletes both
the individual task key and the owner's task-list key, so both
subsequent gets return null. -/
theorem claim5_theorem :
    ∀ (ic : Bool) (store : List (String × Entry)) (now : Nat) (t u : String),
      invalidateTaskCache false false false t u (upState ic store now) =
        (Except.ok (),
         delKeys [("tasks:") ++ u] (delKeys [("task:") ++ t] (upState ic store now))) ∧
      (getCachedTask false false t
          ((invalidateTaskCache false false false t u (upState ic store now)).2)).1 =
        Except.ok JsValue.null ∧
      (getCachedTasks false false u
          ((invalidateTaskCache false false false t u (upState ic store now)).2)).1 =
        Except.ok JsValue.null := by
  intro ic store now t u
  have hrun := @invalidateTaskCache_open (upState ic store now) rfl false t u
  refine ⟨hrun, ?_, ?_⟩
  · rw [hrun]
    rw [getCachedTask_open rfl]
    have hfind : findEntry (("task:") ++ t)
        (delKeys [("tasks:") ++ u] (delKeys [("task:") ++ t] (upState ic store now))).store =
        none := by
      by_cases hmem : (("task:") ++ t) ∈ [("tasks:") ++ u]
      · exact findEntry_delKeys_mem hmem _
      · rw [findEntry_delKeys_not_mem hmem]
        exact findEntry_delKeys_mem (by simp) _
    rw [getResult_none hfind]
  · rw [hrun]
    rw [getCachedTasks_open rfl]
    rw [getResult_none (findEntry_delKeys_mem (by simp) _)]

/-- Claim C7: with the store reachable, validateSession answers true
right after storeSession for the same pair, and false right after
revokeSession for that pair. -/
theorem claim7_theorem :
    ∀ (ic : Bool) (store : List (String × Entry)) (now : Nat) (u t tok : String),
      validateSession false false u t
          ((storeSession false false u t tok (upState ic store now)).2) =
        (Except.ok true, (storeSession false false u t tok (upState ic store now)).2) ∧
      validateSession false false u t
          ((revokeSession false false u t (upState ic store now)).2) =
        (Except.ok false, (revokeSession false false u t (upState ic store now)).2) := by
  intro ic store now u t tok
  constructor
  · rw [storeSession_open rfl]
    rw [validateSession_open rfl]
    unfold liveValue
    rw [findEntry_setEntry_self]
    simp only [show entryLive
        (setEntry (sessionKey u t) tok (some ((upState ic store now).now + ttlSESSION))
          (upState ic store now)).now
        (Entry.mk tok (some ((upState ic store now).now + ttlSESSION))) = true by
      simp [entryLive, setEntry, upState, ttlSESSION], if_true, if_pos]
  · rw [revokeSession_open rfl]
    rw [validateSession_open rfl]
    rw [liveValue_of_findEntry_none (findEntry_delKeys_mem (by simp) _)]

theorem liveValue_expired {st : RedisState} {k s : String} {texp : Nat}
    (hf : findEntry k st.store = some (Entry.mk s (some texp))) (h : texp ≤ st.now) :
    liveValue st k = none := by
  unfold liveValue
  rw [hf]
  simp only [show entryLive st.now (Entry.mk s (some texp)) = false by simp [entryLive]; omega,
    Bool.false_eq_true, if_false]

theorem getResult_expired {st : RedisState} {k s : String} {texp : Nat}
    (hf : findEntry k st.store = some (Entry.mk s (some texp))) (h : texp ≤ st.now) :
    getResult st k = JsValue.null := by
  unfold getResult
  rw [liveValue_expired hf h]

/-- Claim C8: every cache write uses the fixed per-entity TTL (user 3600,
task list 300, individual task 600, session 7 days), and a fresh lookup
strictly more than the TTL after the write, with no intervening re-set,
finds the entry expired. -/
theorem claim8_theorem :
    (∀ (ic : Bool) (store : List (String × Entry)) (now : Nat) (u : String) (v : JsValue),
      findEntry (("user:") ++ u)
          ((setCachedUser false false u v (upState ic store now)).2).store =
        some (Entry.mk (stringify v) (some (now + 3600)))) ∧
    (∀ (ic : Bool) (store : List (String × Entry)) (now : Nat) (u : String)
        (vs : List JsValue),
      findEntry (("tasks:") ++ u)
          ((setCachedTasks false false u vs (upState ic store now)).2).store =
        some (Entry.mk (stringify (JsValue.arr vs)) (some (now + 300)))) ∧
    (∀ (ic : Bool) (store : List (String × Entry)) (now : Nat) (t : String) (v : JsValue),
      findEntry (("task:") ++ t)
          ((setCachedTask false false t v (upState ic store now)).2).store =
        some (Entry.mk (stringify v) (some (now + 600)))) ∧
    (∀ (ic : Bool) (store : List (String × Entry)) (now : Nat) (u t tok : String),
      findEntry (sessionKey u t)
          ((storeSession false false u t tok (upState ic store now)).2).store =
        some (Entry.mk tok (some (now + 7 * 86400)))) ∧
    (∀ (ic : Bool) (store : List (String × Entry)) (now : Nat) (u : String) (v : JsValue)
        (t2 : Nat), now + 3600 < t2 →
      (getCachedUser false false u (RedisState.mk true ic
          ((setCachedUser false false u v (upState ic store now)).2).store t2)).1 =
        Except.ok JsValue.null) ∧
    (∀ (ic : Bool) (store : List (String × Entry)) (now : Nat) (u : String)
        (vs : List JsValue) (t2 : Nat), now + 300 < t2 →
      (getCachedTasks false false u (RedisState.mk true ic
          ((setCachedTasks false false u vs (upState ic store now)).2).store t2)).1 =
        Except.ok JsValue.null) ∧
    (∀ (ic : Bool) (store : List (String × Entry)) (now : Nat) (t : String) (v : JsValue)
        (t2 : Nat), now + 600 < t2 →
      (getCachedTask false false t (RedisState.mk true ic
          ((setCachedTask false false t v (upState ic store now)).2).store t2)).1 =
        Except.ok JsValue.null) ∧
    (∀ (ic : Bool) (store : List (String × Entry)) (now : Nat) (u t tok : String)
        (t2 : Nat), now + 7 * 86400 < t2 →
      (validateSession false false u t (RedisState.mk true ic
          ((storeSession false false u t tok (upState ic store now)).2).store t2)).1 =
        Except.ok false) := by
  refine ⟨?_, ?_, ?_, ?_, ?_, ?_, ?_, ?_⟩
  · intro ic store now u v
    rw [setCachedUser_open rfl]
    exact findEntry_setEntry_self _ _ _ _
  · intro ic store now u vs
    rw [setCachedTasks_open rfl]
    exact findEntry_setEntry_self _ _ _ _
  · intro ic store now t v
    rw [setCachedTask_open rfl]
    exact findEntry_setEntry_self _ _ _ _
  · intro ic store now u t tok
    rw [storeSession_open rfl]
    exact findEntry_setEntry_self _ _ _ _
  · intro ic store now u v t2 ht
    rw [getCachedUser_open rfl]
    rw [setCachedUser_open rfl]
    rw [@getResult_expired (RedisState.mk true ic
        (setEntry (("user:") ++ u) (stringify v)
          (some ((upState ic store now).now + ttlUSER)) (upState ic store now)).store t2) _ _ _
      (findEntry_setEntry_self _ _ _ _) (by simp [upState, ttlUSER]; omega)]
  · intro ic store now u vs t2 ht
    rw [getCachedTasks_open rfl]
    rw [setCachedTasks_open rfl]
    rw [@getResult_expired (RedisState.mk true ic
        (setEntry (("tasks:") ++ u) (stringify (JsValue.arr vs))
          (some ((upState ic store now).now + ttlTASKS)) (upState ic store now)).store t2) _ _ _
      (findEntry_setEntry_self _ _ _ _) (by simp [upState, ttlTASKS]; omega)]
  · intro ic store now t v t2 ht
    rw [getCachedTask_open rfl]
    rw [setCachedTask_open rfl]
    rw [@getResult_expired (RedisState.mk true ic
        (setEntry (("task:") ++ t) (stringify v)
          (some ((upState ic store now).now + ttlTASK)) (upState ic store now)).store t2) _ _ _
      (findEntry_setEntry_self _ _ _ _) (by simp [upState, ttlTASK]; omega)]
  · intro ic store now u t tok t2 ht
    rw [validateSession_open rfl]
    rw [storeSession_open rfl]
    rw [@liveValue_expired (RedisState.mk true ic
        (setEntry (sessionKey u t) tok
          (some ((upState ic store now).now + ttlSESSION)) (upState ic store now)).store t2) _ _ _
      (findEntry_setEntry_self _ _ _ _) (by simp [upState, ttlSESSION]; omega)]

/-- Claim C8 witness: the concrete expiries at time zero with a lookup one
second past each TTL. -/
theorem claim8_witness :
    (0 + 3600 < 3601 ∧
      (getCachedUser false false ("u") (RedisState.mk true false
          ((setCachedUser false false ("u") JsValue.null (upState false [] 0)).2).store
          3601)).1 = Except.ok JsValue.null) ∧
    (0 + 300 < 301 ∧
      (getCachedTasks false false ("u") (RedisState.mk true false
          ((setCachedTasks false false ("u") [] (upState false [] 0)).2).store 301)).1 =
        Except.ok JsValue.null) ∧
    (0 + 600 < 601 ∧
      (getCachedTask false false ("t") (RedisState.mk true false
          ((setCachedTask false false ("t") JsValue.null (upState false [] 0)).2).store
          601)).1 = Except.ok JsValue.null) ∧
    (0 + 7 * 86400 < 604801 ∧
      (validateSession false false ("u") ("t") (RedisState.mk true false
          ((storeSession false false ("u") ("t") ("tok") (upState false [] 0)).2).store
          604801)).1 = Except.ok false) :=
  ⟨⟨by norm_num, claim8_theorem.2.2.2.2.1 false [] 0 ("u") JsValue.null 3601 (by norm_num)⟩,
   ⟨by norm_num, claim8_theorem.2.2.2.2.2.1 false [] 0 ("u") [] 301 (by norm_num)⟩,
   ⟨by norm_num, claim8_theorem.2.2.2.2.2.2.1 false [] 0 ("t") JsValue.null 601 (by norm_num)⟩,
   ⟨by norm_num, claim8_theorem.2.2.2.2.2.2.2 false [] 0 ("u") ("t") ("tok") 604801
     (by norm_num)⟩⟩

theorem findEntry_head (k : String) (e : Entry) (store : List (String × Entry)) :
    findEntry k ((k, e) :: store) = some e := by
  simp [findEntry]

theorem getResult_payload {st : RedisState} {k payload : String}
    (hf : findEntry k st.store = some (Entry.mk payload none)) :
    getResult st k =
      (if payload = ("") then JsValue.null
       else (deserialize payload).getD JsValue.null) := by
  unfold getResult liveValue
  rw [hf]
  simp only [show entryLive st.now (Entry.mk payload none) = true from rfl, if_true, if_pos]

/-- Claim C9: a stored payload that fails to deserialize makes every get
return null, exactly the result for a missing key, with no error
surfaced. -/
theorem claim9_theorem :
    ∀ (ic : Bool) (store : List (String × Entry)) (now : Nat) (id payload : String),
      deserialize payload = none →
      (getCachedUser false false id
          (upState ic ((("user:") ++ id, Entry.mk payload none) :: store) now) =
        (Except.ok JsValue.null,
         upState ic ((("user:") ++ id, Entry.mk payload none) :: store) now)) ∧
      (getCachedTasks false false id
          (upState ic ((("tasks:") ++ id, Entry.mk payload none) :: store) now) =
        (Except.ok JsValue.null,
         upState ic ((("tasks:") ++ id, Entry.mk payload none) :: store) now)) ∧
      (getCachedTask false false id
          (upState ic ((("task:") ++ id, Entry.mk payload none) :: store) now) =
        (Except.ok JsValue.null,
         upState ic ((("task:") ++ id, Entry.mk payload none) :: store) now)) ∧
      (∀ (store2 : List (String × Entry)),
        findEntry (("user:") ++ id) store2 = none →
        getCachedUser false false id (upState ic store2 now) =
          (Except.ok JsValue.null, upState ic store2 now)) := by
  intro ic store now id payload hbad
  have hval : (if payload = ("") then JsValue.null
      else (deserialize payload).getD JsValue.null) = JsValue.null := by
    by_cases hp : payload = ("")
    · rw [if_pos hp]
    · rw [if_neg hp, hbad]
      rfl
  refine ⟨?_, ?_, ?_, ?_⟩
  · rw [getCachedUser_open rfl]
    rw [getResult_payload (findEntry_head _ _ _), hval]
  · rw [getCachedTasks_open rfl]
    rw [getResult_payload (findEntry_head _ _ _), hval]
  · rw [getCachedTask_open rfl]
    rw [getResult_payload (findEntry_head _ _ _), hval]
  · intro store2 h2
    rw [getCachedUser_open rfl]
    rw [getResult_none h2]

/-- Claim C9 witness: the concrete unparsable payload, an opening brace
with nothing after it. -/
theorem claim9_witness :
    deserialize ("\x7b") = none ∧
    getCachedUser false false ("id")
        (upState false [(("user:") ++ ("id"), Entry.mk ("\x7b") none)] 0) =
      (Except.ok JsValue.null,
       upState false [(("user:") ++ ("id"), Entry.mk ("\x7b") none)] 0) :=
  ⟨rfl, (claim9_theorem false [] 0 ("id") ("\x7b") rfl).1⟩

/-- Claim C10: a falsy cached value is indistinguishable from a miss: an
empty stored payload and a payload deserializing to JSON null both make
every get return null, the same value as for an absent key. -/
theorem claim10_theorem :
    ∀ (ic : Bool) (store : List (String × Entry)) (now : Nat) (id payload : String),
      (getCachedUser false false id
          (upState ic ((("user:") ++ id, Entry.mk ("") none) :: store) now) =
        (Except.ok JsValue.null,
         upState ic ((("user:") ++ id, Entry.mk ("") none) :: store) now)) ∧
      (getCachedTasks false false id
          (upState ic ((("tasks:") ++ id, Entry.mk ("") none) :: store) now) =
        (Except.ok JsValue.null,
         upState ic ((("tasks:") ++ id, Entry.mk ("") none) :: store) now)) ∧
      (getCachedTask false false id
          (upState ic ((("task:") ++ id, Entry.mk ("") none) :: store) now) =
        (Except.ok JsValue.null,
         upState ic ((("task:") ++ id, Entry.mk ("") none) :: store) now)) ∧
      (deserialize payload = some JsValue.null →
        (getCachedUser false false id
            (upState ic ((("user:") ++ id, Entry.mk payload none) :: store) now) =
          (Except.ok JsValue.null,
           upState ic ((("user:") ++ id, Entry.mk payload none) :: store) now)) ∧
        (getCachedTasks false false id
            (upState ic ((("tasks:") ++ id, Entry.mk payload none) :: store) now) =
          (Except.ok JsValue.null,
           upState ic ((("tasks:") ++ id, Entry.mk payload none) :: store) now)) ∧
        (getCachedTask false false id
            (upState ic ((("task:") ++ id, Entry.mk payload none) :: store) now) =
          (Except.ok JsValue.null,
           upState ic ((("task:") ++ id, Entry.mk payload none) :: store) now))) ∧
      (∀ (store2 : List (String × Entry)),
        findEntry (("user:") ++ id) store2 = none →
        getCachedUser false false id (upState ic store2 now) =
          (Except.ok JsValue.null, upState ic store2 now)) := by
  intro ic store now id payload
  refine ⟨?_, ?_, ?_, ?_, ?_⟩
  · rw [getCachedUser_open rfl]
    rw [getResult_payload (findEntry_head _ _ _)]
    rw [if_pos rfl]
  · rw [getCachedTasks_open rfl]
    rw [getResult_payload (findEntry_head _ _ _)]
    rw [if_pos rfl]
  · rw [getCachedTask_open rfl]
    rw [getResult_payload (findEntry_head _ _ _)]
    rw [if_pos rfl]
  · intro hnull
    have hval : (if payload = ("") then JsValue.null
        else (deserialize payload).getD JsValue.null) = JsValue.null := by
      by_cases hp : payload = ("")
      · rw [if_pos hp]
      · rw [if_neg hp, hnull]
        rfl
    refine ⟨?_, ?_, ?_⟩
    · rw [getCachedUser_open rfl]
      rw [getResult_payload (findEntry_head _ _ _), hval]
    · rw [getCachedTasks_open rfl]
      rw [getResult_payload (findEntry_head _ _ _), hval]
    · rw [getCachedTask_open rfl]
      rw [getResult_payload (findEntry_head _ _ _), hval]
  · intro store2 h2
    rw [getCachedUser_open rfl]
    rw [getResult_none h2]

/-- Claim C10 witness: the payload written by setCachedUser(id, null) is
the four-character text null, which parses back to JSON null, and the get
then returns null. -/
theorem claim10_witness :
    deserialize ("null") = some JsValue.null ∧
    getCachedUser false false ("id")
        (upState false [(("user:") ++ ("id"), Entry.mk ("null") none)] 0) =
      (Except.ok JsValue.null,
       upState false [(("user:") ++ ("id"), Entry.mk ("null") none)] 0) :=
  ⟨rfl, ((claim10_theorem false [] 0 ("id") ("null")).2.2.2.1 rfl).1⟩

/-- Claim C3: checkRateLimit with the store reachable increments the
counter at the ratelimit key, sets the 60-second window expiry exactly
when the post-increment count is 1 (key just created, or counter at 0),
leaves the expiry untouched otherwise, and returns allowed = (count ≤ max)
and remaining = max 0 (max − count); four successive calls with max = 3
inside one window return remaining 2, 1, 0 and then allowed = false with
remaining 0. -/
theorem claim3_theorem :
    (∀ (ic : Bool) (store : List (String × Entry)) (now : Nat) (u e : String) (m : Int),
      liveValue (upState ic store now) (rateKey u e) = none →
      checkRateLimit false false false u e m (upState ic store now) =
        (Except.ok (RateResult.mk (decide ((1 : Int) ≤ m)) (max 0 (m - 1))),
         setEntry (rateKey u e) ("1") (some (now + 60))
           (setEntry (rateKey u e) ("1") none (upState ic store now)))) ∧
    (∀ (ic : Bool) (store : List (String × Entry)) (now : Nat) (u e : String) (m : Int)
        (en : Entry) (n : Int),
      findEntry (rateKey u e) store = some en →
      entryLive now en = true →
      parseStoredInt en.value = some n →
      n + 1 ≤ int64Max →
      ¬(n + 1 = 1) →
      checkRateLimit false false false u e m (upState ic store now) =
        (Except.ok (RateResult.mk (decide (n + 1 ≤ m)) (max 0 (m - (n + 1)))),
         setEntry (rateKey u e) (toString (n + 1)) en.expiry (upState ic store now))) ∧
    (∀ (ic : Bool) (store : List (String × Entry)) (now : Nat) (u e : String) (m : Int)
        (en : Entry),
      findEntry (rateKey u e) store = some en →
      entryLive now en = true →
      parseStoredInt en.value = some 0 →
      checkRateLimit false false false u e m (upState ic store now) =
        (Except.ok (RateResult.mk (decide ((1 : Int) ≤ m)) (max 0 (m - 1))),
         setEntry (rateKey u e) (toString ((0 : Int) + 1)) (some (now + 60))
           (setEntry (rateKey u e) (toString ((0 : Int) + 1)) en.expiry
             (upState ic store now)))) ∧
    ((checkRateLimit false false false ("u") ("e") 3 (upState false [] 0)).1 =
        Except.ok (RateResult.mk true 2) ∧
      (checkRateLimit false false false ("u") ("e") 3
          ((checkRateLimit false false false ("u") ("e") 3 (upState false [] 0)).2)).1 =
        Except.ok (RateResult.mk true 1) ∧
      (checkRateLimit false false false ("u") ("e") 3
          ((checkRateLimit false false false ("u") ("e") 3
            ((checkRateLimit false false false ("u") ("e") 3 (upState false [] 0)).2)).2)).1 =
        Except.ok (RateResult.mk true 0) ∧
      (checkRateLimit false false false ("u") ("e") 3
          ((checkRateLimit false false false ("u") ("e") 3
            ((checkRateLimit false false false ("u") ("e") 3
              ((checkRateLimit false false false ("u") ("e") 3
                (upState false [] 0)).2)).2)).2)).1 =
        Except.ok (RateResult.mk false 0)) := by
  refine ⟨?_, ?_, ?_, by constructor <;> first | rfl | (constructor <;> first | rfl |
    (constructor <;> rfl))⟩
  · intro ic store now u e m hkey
    exact checkRateLimit_fresh rfl false u e m hkey
  · intro ic store now u e m en n hkey hlive hn hmax hone
    exact checkRateLimit_incr rfl false u e m hkey hlive hn hmax hone
  · intro ic store now u e m en hkey hlive hn
    exact checkRateLimit_incr_one rfl false u e m hkey hlive hn

/-- Claim C3 witness: the first call on an absent counter. -/
theorem claim3_witness :
    liveValue (upState false [] 0) (rateKey ("u") ("e")) = none ∧
    checkRateLimit false false false ("u") ("e") 3 (upState false [] 0) =
      (Except.ok (RateResult.mk (decide ((1 : Int) ≤ 3)) (max 0 (3 - 1))),
       setEntry (rateKey ("u") ("e")) ("1") (some (0 + 60))
         (setEntry (rateKey ("u") ("e")) ("1") none (upState false [] 0))) :=
  ⟨rfl, claim3_theorem.1 false [] 0 ("u") ("e") 3 rfl⟩

/-- A character that Redis glob matching treats literally. -/
def plainChar (c : Char) : Bool :=
  !(c = '*' || c = '?' || c = '[' || c = '\\')

/-- An identifier safe for use inside the session key space: no glob
metacharacters and no key separator. -/
def plainId (s : String) : Bool :=
  s.data.all (fun c => !(c = '*' || c = '?' || c = '[' || c = '\\' || c = ':'))

theorem isPrefixOf_append_self (l x : List Char) : l.isPrefixOf (l ++ x) = true := by
  induction l with
  | nil => simp [List.isPrefixOf]
  | cons c cs ih => simp [List.isPrefixOf, ih]

theorem isPrefixOf_append_same (a : List Char) :
    ∀ (b c : List Char), (a ++ b).isPrefixOf (a ++ c) = b.isPrefixOf c := by
  induction a with
  | nil => intro b c; rfl
  | cons x xs ih => intro b c; simp [List.isPrefixOf, ih]

theorem globMatchF_star (s : List Char) :
    ∀ (fuel : Nat), s.length + 2 ≤ fuel → globMatchF fuel ['*'] s = true := by
  induction s with
  | nil =>
    intro fuel hf
    obtain ⟨f, rfl⟩ : ∃ f, fuel = f + 2 := ⟨fuel - 2, by omega⟩
    rfl
  | cons d s2 ih =>
    intro fuel hf
    obtain ⟨f, rfl⟩ : ∃ f, fuel = f + 1 := ⟨fuel - 1, by omega⟩
    show (globMatchF f [] (d :: s2) || globMatchF f ['*'] s2) = true
    rw [ih f (by simp at hf ⊢; omega)]
    simp

theorem globMatchF_lit_star (lit : List Char) :
    ∀ (s : List Char) (fuel : Nat), lit.length + s.length + 2 ≤ fuel →
      (∀ c ∈ lit, plainChar c = true) →
      globMatchF fuel (lit ++ ['*']) s = lit.isPrefixOf s := by
  induction lit with
  | nil =>
    intro s fuel hf hp
    rw [show (([] : List Char) ++ ['*']) = ['*'] from rfl]
    rw [globMatchF_star s fuel (by simpa using hf)]
    simp [List.isPrefixOf]
  | cons c cs ih =>
    intro s fuel hf hp
    have hc : plainChar c = true := hp c (by simp)
    have hc1 : ¬(c = '*') := by
      intro he; rw [he] at hc; exact absurd hc (by decide)
    have hc2 : ¬(c = '?') := by
      intro he; rw [he] at hc; exact absurd hc (by decide)
    have hc3 : ¬(c = '[') := by
      intro he; rw [he] at hc; exact absurd hc (by decide)
    have hc4 : ¬(c = '\\') := by
      intro he; rw [he] at hc; exact absurd hc (by decide)
    obtain ⟨f, rfl⟩ : ∃ f, fuel = f + 1 := ⟨fuel - 1, by omega⟩
    cases s with
    | nil =>
      rw [show ((c :: cs) ++ ['*']) = c :: (cs ++ ['*']) from rfl]
      rw [globMatchF.eq_def]
      simp only [hc1, hc2, hc3, hc4, if_neg, if_false]
      rfl
    | cons d s2 =>
      rw [show ((c :: cs) ++ ['*']) = c :: (cs ++ ['*']) from rfl]
      rw [globMatchF.eq_def]
      simp only [hc1, hc2, hc3, hc4, if_neg, if_false]
      show ((c == d) && globMatchF f (cs ++ ['*']) s2) = (c :: cs).isPrefixOf (d :: s2)
      rw [ih s2 f (by simp at hf ⊢; omega) (fun x hx => hp x (by simp [hx]))]
      rfl

theorem globMatch_lit_star (lit s : List Char) (hp : ∀ c ∈ lit, plainChar c = true) :
    globMatch (lit ++ ['*']) s = lit.isPrefixOf s := by
  unfold globMatch
  exact globMatchF_lit_star lit s _ (by simp; omega) hp

theorem colon_prefix_eq (a : List Char) :
    ∀ (b t : List Char), (∀ c ∈ a, ¬(c = ':')) → (∀ c ∈ b, ¬(c = ':')) →
      (a ++ [':']).isPrefixOf (b ++ (':' :: t)) = true → a = b := by
  induction a with
  | nil =>
    intro b t ha hb hpre
    cases b with
    | nil => rfl
    | cons d b2 =>
      simp only [List.nil_append, List.cons_append, List.isPrefixOf] at hpre
      have : (':' : Char) = d := by
        rcases Bool.and_eq_true_iff.mp hpre with ⟨h1, _⟩
        exact beq_iff_eq.mp h1
      exact absurd this.symm (hb d (by simp))
  | cons c a2 ih =>
    intro b t ha hb hpre
    cases b with
    | nil =>
      simp only [List.cons_append, List.nil_append, List.isPrefixOf] at hpre
      rcases Bool.and_eq_true_iff.mp hpre with ⟨h1, _⟩
      exact absurd (beq_iff_eq.mp h1) (ha c (by simp))
    | cons d b2 =>
      simp only [List.cons_append, List.isPrefixOf] at hpre
      rcases Bool.and_eq_true_iff.mp hpre with ⟨h1, h2⟩
      have hcd : c = d := beq_iff_eq.mp h1
      have := ih b2 t (fun x hx => ha x (by simp [hx])) (fun x hx => hb x (by simp [hx])) h2
      rw [hcd, this]

theorem findEntry_mem {k : String} {e : Entry} :
    ∀ {l : List (String × Entry)}, findEntry k l = some e → (k, e) ∈ l := by
  intro l
  induction l with
  | nil => intro h; cases h
  | cons p rest ih =>
    intro h
    unfold findEntry at h
    by_cases hp : p.1 = k
    · rw [if_pos hp] at h
      have : p = (k, e) := by
        rcases p with ⟨k0, e0⟩
        simp at hp h
        simp [hp, h]
      simp [this]
    · rw [if_neg hp] at h
      simp [ih h]

theorem liveValue_some_iff {st : RedisState} {k s : String} :
    liveValue st k = some s ↔
      ∃ e, findEntry k st.store = some e ∧ entryLive st.now e = true ∧ e.value = s := by
  unfold liveValue
  rcases hf : findEntry k st.store with _ | e
  · simp
  · by_cases hv : entryLive st.now e = true
    · simp [hv]
    · simp [hv]

theorem mem_matchingKeys_of_live {st : RedisState} {k : String} {s : String} {pat : String}
    (hl : liveValue st k = some s) (hg : globMatch pat.data k.data = true) :
    k ∈ matchingKeys st pat := by
  obtain ⟨e, hf, hlive, _⟩ := liveValue_some_iff.mp hl
  unfold matchingKeys
  refine List.mem_filter.mpr ⟨?_, hg⟩
  exact List.mem_map.mpr ⟨(k, e), List.mem_filter.mpr ⟨findEntry_mem hf, hlive⟩, rfl⟩

theorem liveValue_none_of_not_mem {st : RedisState} {k pat : String}
    (hg : globMatch pat.data k.data = true) (hmem : ¬(k ∈ matchingKeys st pat)) :
    liveValue st k = none := by
  rcases h : liveValue st k with _ | s
  · rfl
  · exact absurd (mem_matchingKeys_of_live h hg) hmem

theorem liveValue_delKeys_not_mem {ks : List String} {k : String} (h : ¬(k ∈ ks))
    (st : RedisState) :
    liveValue (delKeys ks st) k = liveValue st k := by
  unfold liveValue
  rw [show (delKeys ks st).store = st.store.filter (fun p => !(ks.contains p.1)) from rfl]
  rw [findEntry_filter_not_mem h]
  rfl

theorem liveValue_delKeys_mem {ks : List String} {k : String} (h : k ∈ ks)
    (st : RedisState) :
    liveValue (delKeys ks st) k = none := by
  unfold liveValue
  rw [findEntry_delKeys_mem h]

/-- The session-key list character of sessionGlob's pattern before the
trailing star, and of every sessionKey of the same user. -/
def sessLit (u : String) : List Char :=
  ((("session:").data ++ u.data) ++ [':'])

theorem sessionGlob_data (u : String) : (sessionGlob u).data = sessLit u ++ ['*'] := by
  unfold sessionGlob sessLit
  rw [String.data_append, String.data_append]
  simp

theorem sessionKey_data (u t : String) : (sessionKey u t).data = sessLit u ++ t.data := by
  unfold sessionKey sessLit
  rw [String.data_append, String.data_append, String.data_append]
  simp

theorem sessLit_plain {u : String} (hu : plainId u = true) :
    ∀ c ∈ sessLit u, plainChar c = true := by
  intro c hc
  unfold sessLit at hc
  simp only [List.mem_append] at hc
  rcases hc with (hc | hc) | hc
  · simp only [List.mem_cons, List.not_mem_nil, or_false] at hc
    rcases hc with rfl | rfl | rfl | rfl | rfl | rfl | rfl | rfl <;> decide
  · have := List.all_eq_true.mp hu c hc
    unfold plainChar
    simp only [Bool.not_eq_true', Bool.or_eq_false_iff, decide_eq_false_iff_not] at this ⊢
    exact ⟨⟨⟨this.1.1.1.1, this.1.1.1.2⟩, this.1.1.2⟩, this.1.2⟩
  · simp at hc
    rw [hc]
    decide

theorem sessLit_glob_self (u t : String) (hu : plainId u = true) :
    globMatch (sessionGlob u).data (sessionKey u t).data = true := by
  rw [sessionGlob_data, sessionKey_data]
  rw [globMatch_lit_star _ _ (sessLit_plain hu)]
  exact isPrefixOf_append_self _ _

theorem sessLit_glob_other {u u2 : String} (t2 : String) (hu : plainId u = true)
    (hu2 : plainId u2 = true) (hne : ¬(u2 = u)) :
    globMatch (sessionGlob u).data (sessionKey u2 t2).data = false := by
  rw [sessionGlob_data, sessionKey_data]
  rw [globMatch_lit_star _ _ (sessLit_plain hu)]
  by_cases hpre : (sessLit u).isPrefixOf (sessLit u2 ++ t2.data) = true
  · exfalso
    have hcolon_u : ∀ c ∈ u.data, ¬(c = ':') := by
      intro c hc he
      have := List.all_eq_true.mp hu c hc
      rw [he] at this
      exact absurd this (by decide)
    have hcolon_u2 : ∀ c ∈ u2.data, ¬(c = ':') := by
      intro c hc he
      have := List.all_eq_true.mp hu2 c hc
      rw [he] at this
      exact absurd this (by decide)
    have hshape : (sessLit u).isPrefixOf (sessLit u2 ++ t2.data) =
        ((("session:").data ++ (u.data ++ [':'])).isPrefixOf
          ((("session:").data ++ (u2.data ++ (':' :: t2.data))))) := by
      unfold sessLit
      simp
    rw [hshape, isPrefixOf_append_same] at hpre
    have := colon_prefix_eq u.data u2.data t2.data hcolon_u hcolon_u2 hpre
    have hu_eq : u = u2 := by
      rcases u with ⟨du⟩
      rcases u2 with ⟨du2⟩
      exact congrArg String.mk (by simpa using this)
    exact hne hu_eq.symm
  · cases hb : (sessLit u).isPrefixOf (sessLit u2 ++ t2.data) with
    | false => rfl
    | true => exact absurd hb hpre

/-- Claim C6 counterexample: user identifiers are arbitrary strings, and
one containing a colon lands inside another user's glob.  With sessions
stored for user a (token t1) and for user a:b (token t2), revoking all of
user a's sessions also deletes the session of user a:b — the key
session:a:b:t2 matches the glob session:a:* — so another user's session
state is not left unchanged: their validateSession flips from true to
false. -/
theorem claim6_counterexample :
    (validateSession false false ("a:b") ("t2")
        (upState false
          [(sessionKey ("a") ("t1"), Entry.mk ("tok1") none),
           (sessionKey ("a:b") ("t2"), Entry.mk ("tok2") none)] 0)).1 = Except.ok true ∧
    (validateSession false false ("a:b") ("t2")
        ((revokeAllUserSessions false false false ("a")
          (upState false
            [(sessionKey ("a") ("t1"), Entry.mk ("tok1") none),
             (sessionKey ("a:b") ("t2"), Entry.mk ("tok2") none)] 0)).2)).1 =
      Except.ok false := by
  constructor <;> rfl

/-- Claim C6 (amended): provided user identifiers contain no colon and no
glob metacharacter (star, question mark, opening bracket, backslash) —
which the counterexample shows is necessary — revokeAllUserSessions with
the store reachable invalidates every session of the given user, for any
token identifier whatsoever, and leaves every other such user's session
lookups unchanged. -/
theorem claim6_theorem :
    ∀ (ic : Bool) (store : List (String × Entry)) (now : Nat) (u : String),
      plainId u = true →
      (∀ (t : String),
        (validateSession false false u t
            ((revokeAllUserSessions false false false u (upState ic store now)).2)).1 =
          Except.ok false) ∧
      (∀ (u2 t2 : String), plainId u2 = true → ¬(u2 = u) →
        (validateSession false false u2 t2
            ((revokeAllUserSessions false false false u (upState ic store now)).2)).1 =
          (validateSession false false u2 t2 (upState ic store now)).1) := by
  intro ic store now u hu
  constructor
  · intro t
    rw [revokeAllUserSessions_open rfl]
    have hg := sessLit_glob_self u t hu
    by_cases hlen : (matchingKeys (upState ic store now) (sessionGlob u)).length > 0
    · rw [if_pos hlen]
      rw [validateSession_open rfl]
      rw [show ((Except.ok (),
          delKeys (matchingKeys (upState ic store now) (sessionGlob u))
            (upState ic store now))).2 =
        delKeys (matchingKeys (upState ic store now) (sessionGlob u))
          (upState ic store now) from rfl]
      by_cases hmem : sessionKey u t ∈ matchingKeys (upState ic store now) (sessionGlob u)
      · rw [liveValue_delKeys_mem hmem]
      · rw [liveValue_delKeys_not_mem hmem]
        rw [liveValue_none_of_not_mem hg hmem]
    · rw [if_neg hlen]
      rw [validateSession_open rfl]
      have hmem : ¬(sessionKey u t ∈ matchingKeys (upState ic store now) (sessionGlob u)) := by
        intro hm
        exact hlen (List.length_pos_of_mem hm)
      rw [liveValue_none_of_not_mem hg hmem]
  · intro u2 t2 hu2 hne
    rw [revokeAllUserSessions_open rfl]
    have hgf := sessLit_glob_other t2 hu hu2 hne
    have hmem : ¬(sessionKey u2 t2 ∈ matchingKeys (upState ic store now) (sessionGlob u)) := by
      intro hm
      have := (List.mem_filter.mp hm).2
      rw [hgf] at this
      cases this
    by_cases hlen : (matchingKeys (upState ic store now) (sessionGlob u)).length > 0
    · rw [if_pos hlen]
      rw [validateSession_open rfl]
      rw [validateSession_open rfl]
      rw [show ((Except.ok (),
          delKeys (matchingKeys (upState ic store now) (sessionGlob u))
            (upState ic store now))).2 =
        delKeys (matchingKeys (upState ic store now) (sessionGlob u))
          (upState ic store now) from rfl]
      rw [liveValue_delKeys_not_mem hmem]
    · rw [if_neg hlen]

/-- Claim C6 witness: one user with one live session, a bystander user,
both with plain identifiers. -/
theorem claim6_witness :
    plainId ("alice") = true ∧ plainId ("bob") = true ∧ ¬(("bob" : String) = ("alice")) ∧
    (validateSession false false ("alice") ("t1")
        ((revokeAllUserSessions false false false ("alice")
          (upState false [(sessionKey ("alice") ("t1"), Entry.mk ("tok") none)] 0)).2)).1 =
      Except.ok false ∧
    (validateSession false false ("bob") ("t2")
        ((revokeAllUserSessions false false false ("alice")
          (upState false [(sessionKey ("alice") ("t1"), Entry.mk ("tok") none)] 0)).2)).1 =
      (validateSession false false ("bob") ("t2")
        (upState false [(sessionKey ("alice") ("t1"), Entry.mk ("tok") none)] 0)).1 :=
  ⟨by decide, by decide, by decide,
   (claim6_theorem false [(sessionKey ("alice") ("t1"), Entry.mk ("tok") none)] 0 ("alice")
     (by decide)).1 ("t1"),
   (claim6_theorem false [(sessionKey ("alice") ("t1"), Entry.mk ("tok") none)] 0 ("alice")
     (by decide)).2 ("bob") ("t2") (by decide) (by decide)⟩
